import Mathlib

/-!
Verification of the ingrid grid library (a dynamic two-dimensional array
with row/column views, transforms and iterators) against its
natural-language specification.

The Rust source is shallowly embedded: `usize` becomes `Nat`, `Vec<Vec<T>>`
becomes `List (List T)`, and every operation that can panic (the library's
`assert!` bounds checks, plus interior `Vec` indexing / `unwrap`) returns
`Except GridError _`.  The library's own `assert!` failures carry the
message `index out of bounds` / shape messages and are mapped to
`GridError.OutOfBounds` / `GridError.ShapeError`; panics coming from the
standard library (`Vec` indexing, `Option::unwrap` on `None`, slice
`rotate` with an oversized count) are mapped to `GridError.Panic`.
-/

namespace Ingrid

/-- Mirrors `Size` from `src/size.rs`: a (width, height) pair of `usize`. -/
structure Size where
  width : Nat
  height : Nat
deriving DecidableEq, Repr

/-- Mirrors `Coordinate` from `src/coordinate.rs`: x indexes width (columns),
y indexes height (rows), (0,0) is top-left. -/
structure Coordinate where
  x : Nat
  y : Nat
deriving DecidableEq, Repr

/-- Failure modes of the embedded operations.  `OutOfBounds` and
`ShapeError` correspond to the library's own `assert!`s (messages
`index out of bounds`, `vectors don't have the same length`,
`row/column length is invalid`); `Panic` models panics raised inside the
Rust standard library (out-of-range `Vec` indexing, `unwrap` on `None`,
slice rotation beyond the length, division/subtraction overflow). -/
inductive GridError where
  | OutOfBounds
  | ShapeError
  | Panic
deriving DecidableEq, Repr

/-- Mirrors `Grid<T>` from `src/grid.rs`: `size`, the row-major list of
row-buffers `rows`, and `row_capacity` (the reserved width).  The
per-row-buffer allocated capacity of the Rust `Vec`s is not observable
through the API (`capacity()` reports `row_capacity` and `rows.len()`)
and is not modelled. -/
structure Grid (T : Type) where
  size : Size
  rows : List (List T)
  row_capacity : Nat
deriving DecidableEq, Repr

variable {T : Type}

/-- Raw storage lookup `rows[c.y][c.x]`, as an `Option`. -/
def rowsLookup (rows : List (List T)) (c : Coordinate) : Option T :=
  rows[c.y]?.bind fun row => row[c.x]?

/-- Raw storage lookup on a grid. -/
def Grid.lookup (g : Grid T) (c : Coordinate) : Option T :=
  rowsLookup g.rows c

/-- The bounds predicate shared by all coordinate-taking operations:
`x < size.width ∧ y < size.height`. -/
def Grid.inBounds (g : Grid T) (c : Coordinate) : Prop :=
  c.x < g.size.width ∧ c.y < g.size.height

instance (g : Grid T) (c : Coordinate) : Decidable (g.inBounds c) := by
  unfold Grid.inBounds; infer_instance

/-- Mirrors `Grid::value`: two `assert!`s against `size`, then
`&self.rows[coordinate.y][coordinate.x]`. -/
def Grid.value (g : Grid T) (c : Coordinate) : Except GridError T :=
  if c.x < g.size.width then
    if c.y < g.size.height then
      match g.lookup c with
      | some v => .ok v
      | none => .error .Panic
    else .error .OutOfBounds
  else .error .OutOfBounds

/-- Mirrors `Grid::value_mut`: the same two `assert!`s, then
`rows.get_mut(y).unwrap().get_mut(x).unwrap()` (the `unwrap`s are the
`Panic` branches).  Only the produced value is observable in the model. -/
def Grid.value_mut (g : Grid T) (c : Coordinate) : Except GridError T :=
  if c.x < g.size.width then
    if c.y < g.size.height then
      match g.rows[c.y]? with
      | some row =>
        match row[c.x]? with
        | some v => .ok v
        | none => .error .Panic
      | none => .error .Panic
    else .error .OutOfBounds
  else .error .OutOfBounds

/-- Mirrors `Grid::set_value`: two `assert!`s, then
`self.rows[coordinate.y][coordinate.x] = value` (interior indexing panics
are the `Panic` branch). -/
def Grid.set_value (g : Grid T) (c : Coordinate) (v : T) : Except GridError (Grid T) :=
  if c.x < g.size.width then
    if c.y < g.size.height then
      match g.rows[c.y]? with
      | some row =>
        if c.x < row.length then
          .ok { g with rows := g.rows.set c.y (row.set c.x v) }
        else .error .Panic
      | none => .error .Panic
    else .error .OutOfBounds
  else .error .OutOfBounds

/-- Write `v` at coordinate `c` of a row-major buffer (no bounds check;
helper for the swap primitive). -/
def setCell (rows : List (List T)) (c : Coordinate) (v : T) : List (List T) :=
  match rows[c.y]? with
  | some row => rows.set c.y (row.set c.x v)
  | none => rows

/-- Mirrors `Grid::swap_value`: four `assert!`s against `size`, then the
`unsafe` block takes the two element addresses and `mem::swap`s them.
The exchange through two raw addresses is value-wise the write of each
element's old value at the other position (a no-op when the addresses
coincide); the model reads both values and writes them crosswise, which
has exactly that effect.  The `Panic` branch models the (unreachable
under the rectangularity invariant) case where the unchecked interior
access would touch storage that does not exist. -/
def Grid.swap_value (g : Grid T) (a b : Coordinate) : Except GridError (Grid T) :=
  if a.x < g.size.width then
    if a.y < g.size.height then
      if b.x < g.size.width then
        if b.y < g.size.height then
          match g.lookup a, g.lookup b with
          | some va, some vb =>
            .ok { g with rows := setCell (setCell g.rows a vb) b va }
          | _, _ => .error .Panic
        else .error .OutOfBounds
      else .error .OutOfBounds
    else .error .OutOfBounds
  else .error .OutOfBounds

/-- Modelled from the spec: the reference swap the specification compares
`swapValue` against — exchange the two elements through a temporary copy
(`tmp := g[a]; g[a] := g[b]; g[b] := tmp`), written with the library's own
`value`/`set_value`. -/
def Grid.swap_value_spec (g : Grid T) (a b : Coordinate) : Except GridError (Grid T) :=
  (g.value a).bind fun va =>
    (g.value b).bind fun vb =>
      (g.set_value a vb).bind fun g1 => g1.set_value b va

/-- Mirrors `Grid::new`: zero size, no rows, zero row capacity. -/
def Grid.new : Grid T :=
  { size := ⟨0, 0⟩, rows := [], row_capacity := 0 }

/-- Mirrors `Grid::with_size`: `size.height` rows, each `size.width`
clones of `value`; `row_capacity = size.width`. -/
def Grid.with_size (size : Size) (value : T) : Grid T :=
  { size := size,
    rows := List.replicate size.height (List.replicate size.width value),
    row_capacity := size.width }

/-- Mirrors `Grid::with_capacity`: `capacity.height` empty row-buffers,
logical size `(0, 0)`, `row_capacity = capacity.width`. -/
def Grid.with_capacity (capacity : Size) : Grid T :=
  { size := ⟨0, 0⟩,
    rows := List.replicate capacity.height [],
    row_capacity := capacity.width }

/-- Mirrors `Grid::from_rows`: `rows.first().unwrap()` (the `Panic`
branch is the `unwrap` on an empty input), then the
`assert_eq!(rows.iter().all(|row| row.len() == width), true, ...)` shape
check, then the grid is built from the given vectors as-is. -/
def Grid.from_rows (rows : List (List T)) : Except GridError (Grid T) :=
  match rows.head? with
  | none => .error .Panic
  | some first =>
    let width := first.length
    let height := rows.length
    if rows.all fun row => row.length = width then
      .ok { size := ⟨width, height⟩, rows := rows, row_capacity := width }
    else .error .ShapeError

/-- The implementation invariant every reachable grid satisfies:
`size.width ≤ row_capacity`, `size.height ≤ rows.length`, the first
`size.height` row-buffers hold exactly `size.width` elements and every
spare row-buffer beyond them is empty. -/
def Grid.WF (g : Grid T) : Prop :=
  g.size.width ≤ g.row_capacity ∧
  g.size.height ≤ g.rows.length ∧
  ∀ i, i < g.rows.length →
    (g.rows.getD i []).length = if i < g.size.height then g.size.width else 0

instance (g : Grid T) : Decidable g.WF := by
  unfold Grid.WF; infer_instance

/-! Basic consequences of well-formedness. -/

theorem Grid.WF.row_length {g : Grid T} (hw : g.WF) {i : Nat} {r : List T}
    (h : g.rows[i]? = some r) :
    r.length = if i < g.size.height then g.size.width else 0 := by
  have hi : i < g.rows.length := by
    by_contra hge
    rw [List.getElem?_eq_none (Nat.le_of_not_lt hge)] at h
    exact Option.noConfusion h
  have := hw.2.2 i hi
  rwa [List.getD_eq_getElem?_getD, h] at this

theorem Grid.WF.lookup_isSome {g : Grid T} (hw : g.WF) {c : Coordinate}
    (hc : g.inBounds c) : ∃ v, g.lookup c = some v := by
  obtain ⟨hx, hy⟩ := hc
  have hyl : c.y < g.rows.length := Nat.lt_of_lt_of_le hy hw.2.1
  have hr : g.rows[c.y]? = some g.rows[c.y] := List.getElem?_eq_getElem hyl
  have hrlen : (g.rows[c.y]).length = g.size.width := by
    have := hw.row_length hr
    rwa [if_pos hy] at this
  have hxr : c.x < (g.rows[c.y]).length := hrlen ▸ hx
  refine ⟨(g.rows[c.y])[c.x], ?_⟩
  unfold Grid.lookup rowsLookup
  rw [hr]
  simp [List.getElem?_eq_getElem hxr]

theorem Grid.lookup_some_of_WF {g : Grid T} (hw : g.WF) {c : Coordinate}
    (hc : g.inBounds c) : (g.lookup c).isSome := by
  obtain ⟨v, hv⟩ := hw.lookup_isSome hc
  simp [hv]

/-! Lookup after a raw cell write. -/

theorem rowsLookup_setCell_same (rows : List (List T)) (c : Coordinate) (v : T)
    (hc : (rowsLookup rows c).isSome) :
    rowsLookup (setCell rows c v) c = some v := by
  unfold rowsLookup at *
  unfold setCell
  cases hrow : rows[c.y]? with
  | none => simp [hrow] at hc
  | some row =>
    rw [hrow] at hc
    have hcx : c.x < row.length := by
      cases hx : row[c.x]? with
      | none => simp [hx] at hc
      | some w => exact (List.getElem?_eq_some_iff.mp hx).1
    have hcy : c.y < rows.length := (List.getElem?_eq_some_iff.mp hrow).1
    rw [List.getElem?_set_self (by simpa using hcy)]
    simp [List.getElem?_set_self hcx]

theorem rowsLookup_setCell_other (rows : List (List T)) (c d : Coordinate) (v : T)
    (hne : d ≠ c) :
    rowsLookup (setCell rows c v) d = rowsLookup rows d := by
  unfold rowsLookup setCell
  cases hrow : rows[c.y]? with
  | none => rfl
  | some row =>
    by_cases hy : d.y = c.y
    · have hx : d.x ≠ c.x := by
        intro hx; exact hne (by cases c; cases d; simp_all)
      rw [hy, List.getElem?_set_self ((List.getElem?_eq_some_iff.mp hrow).1), hrow]
      simp [List.getElem?_set_ne (Ne.symm hx)]
    · rw [List.getElem?_set_ne (fun h => hy h.symm)]

theorem setCell_rows_length (rows : List (List T)) (c : Coordinate) (v : T) :
    (setCell rows c v).length = rows.length := by
  unfold setCell
  cases rows[c.y]? <;> simp

theorem setCell_row_lengths (rows : List (List T)) (c : Coordinate) (v : T)
    (i : Nat) : ((setCell rows c v).getD i []).length = (rows.getD i []).length := by
  unfold setCell
  cases hrow : rows[c.y]? with
  | none => rfl
  | some row =>
    simp only [List.getD_eq_getElem?_getD]
    by_cases hi : i = c.y
    · subst hi
      rw [List.getElem?_set_self ((List.getElem?_eq_some_iff.mp hrow).1), hrow]
      simp
    · rw [List.getElem?_set_ne (fun h => hi h.symm)]

/-- A list write of the value already present is the identity. -/
theorem List.set_getElem?_self {α : Type} (l : List α) (i : Nat) (a : α)
    (h : l[i]? = some a) : l.set i a = l := by
  induction l generalizing i with
  | nil => simp at h
  | cons x xs ih =>
    cases i with
    | zero => simp at h; simp [h]
    | succ n => simp at h ⊢; exact ih n h

theorem setCell_self (rows : List (List T)) (c : Coordinate) (v : T)
    (h : rowsLookup rows c = some v) : setCell rows c v = rows := by
  unfold rowsLookup at h
  unfold setCell
  cases hrow : rows[c.y]? with
  | none => rfl
  | some row =>
    rw [hrow] at h
    simp only [Option.some_bind] at h
    show rows.set c.y (row.set c.x v) = rows
    rw [List.set_getElem?_self row c.x v h]
    exact List.set_getElem?_self _ _ _ hrow

/-! Facts about swap_value needed by several claims. -/

theorem Grid.swap_value_eq_ok {g : Grid T} {a b : Coordinate} {va vb : T}
    (ha : g.inBounds a) (hb : g.inBounds b)
    (hA : g.lookup a = some va) (hB : g.lookup b = some vb) :
    g.swap_value a b = .ok { g with rows := setCell (setCell g.rows a vb) b va } := by
  unfold Grid.swap_value
  rw [if_pos ha.1, if_pos ha.2, if_pos hb.1, if_pos hb.2, hA, hB]


theorem Grid.WF.setCell_pres {g : Grid T} (hw : g.WF) (c : Coordinate) (v : T) :
    (Grid.mk g.size (setCell g.rows c v) g.row_capacity).WF := by
  refine ⟨hw.1, ?_, ?_⟩
  · show g.size.height ≤ (setCell g.rows c v).length
    rw [setCell_rows_length]; exact hw.2.1
  · intro i hi
    rw [setCell_rows_length] at hi
    show ((setCell g.rows c v).getD i []).length = _
    rw [setCell_row_lengths]
    exact hw.2.2 i hi

/-! Success and failure characterizations of the element operations. -/

theorem Grid.value_eq_ok {g : Grid T} {c : Coordinate} {v : T}
    (hc : g.inBounds c) (h : g.lookup c = some v) : g.value c = .ok v := by
  unfold Grid.value
  rw [if_pos hc.1, if_pos hc.2, h]

theorem Grid.value_oob {g : Grid T} {c : Coordinate}
    (hc : ¬ g.inBounds c) : g.value c = .error .OutOfBounds := by
  unfold Grid.value Grid.inBounds at *
  split_ifs with h1 h2
  · exact absurd ⟨h1, h2⟩ hc
  · rfl
  · rfl

theorem Grid.value_mut_eq_value (g : Grid T) (c : Coordinate) :
    g.value_mut c = g.value c := by
  unfold Grid.value_mut Grid.value Grid.lookup rowsLookup
  split_ifs
  · cases g.rows[c.y]? with
    | none => rfl
    | some row => cases row[c.x]? <;> rfl
  · rfl
  · rfl

theorem setCell_eq (rows : List (List T)) (c : Coordinate) (v : T)
    {row : List T} (hrow : rows[c.y]? = some row) :
    setCell rows c v = rows.set c.y (row.set c.x v) := by
  unfold setCell
  rw [hrow]

theorem except_bind_ok {E A B : Type} (a : A) (f : A → Except E B) :
    (Except.ok a : Except E A).bind f = f a := rfl

theorem Grid.set_value_eq_ok {g : Grid T} {c : Coordinate} (v : T)
    (hw : g.WF) (hc : g.inBounds c) :
    g.set_value c v = .ok (Grid.mk g.size (setCell g.rows c v) g.row_capacity) := by
  obtain ⟨w, hwc⟩ := hw.lookup_isSome hc
  unfold Grid.lookup rowsLookup at hwc
  unfold Grid.set_value
  rw [if_pos hc.1, if_pos hc.2]
  cases hrow : g.rows[c.y]? with
  | none => rw [hrow] at hwc; simp at hwc
  | some row =>
    rw [hrow] at hwc
    simp only [Option.some_bind] at hwc
    have hlt : c.x < row.length := (List.getElem?_eq_some_iff.mp hwc).1
    rw [setCell_eq g.rows c v hrow]
    simp only [hlt, if_true]

theorem Grid.set_value_oob {g : Grid T} {c : Coordinate} (v : T)
    (hc : ¬ g.inBounds c) : g.set_value c v = .error .OutOfBounds := by
  unfold Grid.set_value Grid.inBounds at *
  split_ifs with h1 h2
  · exact absurd ⟨h1, h2⟩ hc
  · rfl
  · rfl

theorem Grid.swap_value_oob {g : Grid T} {a b : Coordinate}
    (hc : ¬ (g.inBounds a ∧ g.inBounds b)) :
    g.swap_value a b = .error .OutOfBounds := by
  unfold Grid.swap_value Grid.inBounds at *
  split_ifs with h1 h2 h3 h4
  · exact absurd ⟨⟨h1, h2⟩, h3, h4⟩ hc
  · rfl
  · rfl
  · rfl
  · rfl

theorem Grid.swap_value_wf_ok {g : Grid T} (hw : g.WF) {a b : Coordinate}
    (ha : g.inBounds a) (hb : g.inBounds b) :
    ∃ va vb, g.lookup a = some va ∧ g.lookup b = some vb ∧
      g.swap_value a b = .ok (Grid.mk g.size (setCell (setCell g.rows a vb) b va) g.row_capacity) := by
  obtain ⟨va, hva⟩ := hw.lookup_isSome ha
  obtain ⟨vb, hvb⟩ := hw.lookup_isSome hb
  exact ⟨va, vb, hva, hvb, Grid.swap_value_eq_ok ha hb hva hvb⟩

theorem Grid.value_congr {g g' : Grid T} (c : Coordinate)
    (hsize : g'.size = g.size) (h : g'.lookup c = g.lookup c) :
    g'.value c = g.value c := by
  unfold Grid.value
  rw [hsize, h]

/-- Claim C2: on any well-formed grid, each of `value`, `value_mut`,
`set_value` and `swap_value` (in either coordinate argument) fails with
`OutOfBounds` exactly when the coordinate has `x ≥ size.width` or
`y ≥ size.height`, and succeeds on every in-bounds coordinate. -/
theorem claim2_bounds_contract {T : Type} (g : Grid T) (hw : g.WF) :
    (∀ c, (g.value c).isOk ↔ g.inBounds c) ∧
    (∀ c, ¬ g.inBounds c → g.value c = .error .OutOfBounds) ∧
    (∀ c, (g.value_mut c).isOk ↔ g.inBounds c) ∧
    (∀ c, ¬ g.inBounds c → g.value_mut c = .error .OutOfBounds) ∧
    (∀ c v, ((g.set_value c v).isOk ↔ g.inBounds c) ∧
      (¬ g.inBounds c → g.set_value c v = .error .OutOfBounds)) ∧
    (∀ a b, ((g.swap_value a b).isOk ↔ (g.inBounds a ∧ g.inBounds b)) ∧
      (¬ (g.inBounds a ∧ g.inBounds b) →
        g.swap_value a b = .error .OutOfBounds)) := by
  have hval : ∀ c, (g.value c).isOk ↔ g.inBounds c := by
    intro c
    constructor
    · intro h
      by_contra hc
      rw [Grid.value_oob hc] at h
      exact Bool.noConfusion h
    · intro hc
      obtain ⟨v, hv⟩ := hw.lookup_isSome hc
      rw [Grid.value_eq_ok hc hv]
      rfl
  refine ⟨hval, fun c => Grid.value_oob, ?_, ?_, ?_, ?_⟩
  · intro c; rw [Grid.value_mut_eq_value]; exact hval c
  · intro c hc; rw [Grid.value_mut_eq_value]; exact Grid.value_oob hc
  · intro c v
    constructor
    · constructor
      · intro h
        by_contra hc
        rw [Grid.set_value_oob v hc] at h
        exact Bool.noConfusion h
      · intro hc
        rw [Grid.set_value_eq_ok v hw hc]
        rfl
    · exact Grid.set_value_oob v
  · intro a b
    constructor
    · constructor
      · intro h
        by_contra hc
        rw [Grid.swap_value_oob hc] at h
        exact Bool.noConfusion h
      · intro hc
        obtain ⟨va, vb, _, _, hok⟩ := Grid.swap_value_wf_ok hw hc.1 hc.2
        rw [hok]
        rfl
    · exact Grid.swap_value_oob

/-- Witness for C2 at a concrete grid. -/
theorem claim2_witness :
    (Grid.with_size ⟨2, 2⟩ (0 : Nat)).WF ∧
    ((∀ c, ((Grid.with_size ⟨2, 2⟩ (0 : Nat)).value c).isOk ↔ (Grid.with_size ⟨2, 2⟩ (0 : Nat)).inBounds c) ∧
    (∀ c, ¬ (Grid.with_size ⟨2, 2⟩ (0 : Nat)).inBounds c → (Grid.with_size ⟨2, 2⟩ (0 : Nat)).value c = .error .OutOfBounds) ∧
    (∀ c, ((Grid.with_size ⟨2, 2⟩ (0 : Nat)).value_mut c).isOk ↔ (Grid.with_size ⟨2, 2⟩ (0 : Nat)).inBounds c) ∧
    (∀ c, ¬ (Grid.with_size ⟨2, 2⟩ (0 : Nat)).inBounds c → (Grid.with_size ⟨2, 2⟩ (0 : Nat)).value_mut c = .error .OutOfBounds) ∧
    (∀ c v, (((Grid.with_size ⟨2, 2⟩ (0 : Nat)).set_value c v).isOk ↔ (Grid.with_size ⟨2, 2⟩ (0 : Nat)).inBounds c) ∧
      (¬ (Grid.with_size ⟨2, 2⟩ (0 : Nat)).inBounds c → (Grid.with_size ⟨2, 2⟩ (0 : Nat)).set_value c v = .error .OutOfBounds)) ∧
    (∀ a b, (((Grid.with_size ⟨2, 2⟩ (0 : Nat)).swap_value a b).isOk ↔ ((Grid.with_size ⟨2, 2⟩ (0 : Nat)).inBounds a ∧ (Grid.with_size ⟨2, 2⟩ (0 : Nat)).inBounds b)) ∧
      (¬ ((Grid.with_size ⟨2, 2⟩ (0 : Nat)).inBounds a ∧ (Grid.with_size ⟨2, 2⟩ (0 : Nat)).inBounds b) →
        (Grid.with_size ⟨2, 2⟩ (0 : Nat)).swap_value a b = .error .OutOfBounds))) :=
  ⟨by decide, claim2_bounds_contract (Grid.with_size ⟨2, 2⟩ (0 : Nat)) (by decide)⟩

/-- Claim C3: on a well-formed grid, `swap_value` at two in-bounds
coordinates agrees exactly with the reference implementation that
exchanges the two elements through a temporary copy; with `a = b` the
grid is unchanged; the element at `a` afterwards is the old element at
`b` and vice versa (whether or not the two coordinates share a row), and
every other element as well as the size is unchanged. -/
theorem claim3_swap_correct {T : Type} (g : Grid T) (a b : Coordinate)
    (hw : g.WF) (ha : g.inBounds a) (hb : g.inBounds b) :
    g.swap_value a b = g.swap_value_spec a b ∧
    (a = b → g.swap_value a b = .ok g) ∧
    ∃ g', g.swap_value a b = .ok g' ∧ g'.size = g.size ∧
      g'.value a = g.value b ∧ g'.value b = g.value a ∧
      ∀ c, g.inBounds c → c ≠ a → c ≠ b → g'.value c = g.value c := by
  obtain ⟨va, vb, hva, hvb, hok⟩ := Grid.swap_value_wf_ok hw ha hb
  have hvaR : rowsLookup g.rows a = some va := hva
  have hvbR : rowsLookup g.rows b = some vb := hvb
  have hva' : g.value a = .ok va := Grid.value_eq_ok ha hva
  have hvb' : g.value b = .ok vb := Grid.value_eq_ok hb hvb
  have hg1wf : (Grid.mk g.size (setCell g.rows a vb) g.row_capacity).WF :=
    hw.setCell_pres a vb
  have hspec : g.swap_value_spec a b =
      .ok (Grid.mk g.size (setCell (setCell g.rows a vb) b va) g.row_capacity) := by
    unfold Grid.swap_value_spec
    rw [hva', hvb', except_bind_ok, except_bind_ok,
      Grid.set_value_eq_ok vb hw ha, except_bind_ok,
      Grid.set_value_eq_ok va hg1wf hb]
  have lookup2a :
      rowsLookup (setCell (setCell g.rows a vb) b va) a = some vb := by
    by_cases hab : a = b
    · have hvv : va = vb := by
        rw [hab] at hva; rw [hva] at hvb; exact Option.some.inj hvb
      rw [← hab, hvv]
      apply rowsLookup_setCell_same
      rw [rowsLookup_setCell_same]
      · rfl
      · simp [hvaR]
    · rw [rowsLookup_setCell_other _ _ _ _ hab]
      apply rowsLookup_setCell_same
      simp [hvaR]
  have lookup2b :
      rowsLookup (setCell (setCell g.rows a vb) b va) b = some va := by
    apply rowsLookup_setCell_same
    by_cases hab : b = a
    · rw [hab, rowsLookup_setCell_same]
      · rfl
      · simp [hvaR]
    · rw [rowsLookup_setCell_other _ _ _ _ hab]
      simp [hvbR]
  refine ⟨by rw [hok, hspec], ?_,
    Grid.mk g.size (setCell (setCell g.rows a vb) b va) g.row_capacity,
    hok, rfl, ?_, ?_, ?_⟩
  · intro hab
    rw [hok]
    have hvv : va = vb := by
      rw [hab] at hva; rw [hva] at hvb; exact Option.some.inj hvb
    have h1 : setCell g.rows a vb = g.rows := by
      rw [← hvv]
      exact setCell_self g.rows a va hvaR
    rw [h1]
    have h2 : setCell g.rows b va = g.rows := by
      rw [hvv]
      exact setCell_self g.rows b vb hvbR
    rw [h2]
  · rw [@Grid.value_eq_ok T
      (Grid.mk g.size (setCell (setCell g.rows a vb) b va) g.row_capacity)
      a vb ha lookup2a, hvb']
  · rw [@Grid.value_eq_ok T
      (Grid.mk g.size (setCell (setCell g.rows a vb) b va) g.row_capacity)
      b va hb lookup2b, hva']
  · intro c hcin hca hcb
    apply @Grid.value_congr T g
      (Grid.mk g.size (setCell (setCell g.rows a vb) b va) g.row_capacity) c rfl
    show rowsLookup (setCell (setCell g.rows a vb) b va) c = rowsLookup g.rows c
    rw [rowsLookup_setCell_other _ _ _ _ hcb, rowsLookup_setCell_other _ _ _ _ hca]

/-- Witness for C3 at a concrete grid and coordinates in different rows. -/
theorem claim3_witness :
    (Grid.mk ⟨2, 2⟩ [[1, 2], [3, 4]] 2 : Grid Nat).WF ∧
    (Grid.mk ⟨2, 2⟩ [[1, 2], [3, 4]] 2 : Grid Nat).swap_value ⟨0, 0⟩ ⟨1, 1⟩ =
      (Grid.mk ⟨2, 2⟩ [[1, 2], [3, 4]] 2 : Grid Nat).swap_value_spec ⟨0, 0⟩ ⟨1, 1⟩ :=
  ⟨by decide,
    (claim3_swap_correct (Grid.mk ⟨2, 2⟩ [[1, 2], [3, 4]] 2) ⟨0, 0⟩ ⟨1, 1⟩
      (by decide) (by decide) (by decide)).1⟩

/-! Claim C8: `from_rows`. -/

/-- Claim C8 (counterexample): on the empty list of rows, `from_rows`
does not succeed — `rows.first().unwrap()` panics — contradicting the
claim that every same-length input (including the empty list) yields a
grid. -/
theorem claim8_counterexample :
    Grid.from_rows ([] : List (List Nat)) = .error .Panic := rfl

/-- Claim C8 (amended): for every NON-EMPTY list of rows, `from_rows`
fails with `ShapeError` exactly when not all rows share the length of
the first row, and otherwise succeeds with precisely the given rows;
on the empty list it fails with a panic (`unwrap` on `None`) instead of
succeeding. -/
theorem claim8_from_rows {T : Type} (r0 : List T) (rest : List (List T)) :
    ((∀ r ∈ r0 :: rest, r.length = r0.length) →
      Grid.from_rows (r0 :: rest) =
        .ok (Grid.mk ⟨r0.length, rest.length + 1⟩ (r0 :: rest) r0.length)) ∧
    ((¬ ∀ r ∈ r0 :: rest, r.length = r0.length) →
      Grid.from_rows (r0 :: rest) = .error .ShapeError) ∧
    Grid.from_rows ([] : List (List T)) = .error .Panic := by
  refine ⟨?_, ?_, rfl⟩
  · intro hall
    unfold Grid.from_rows
    simp only [List.head?_cons]
    rw [if_pos]
    · rfl
    · simpa [List.all_eq_true] using hall
  · intro hall
    unfold Grid.from_rows
    simp only [List.head?_cons]
    rw [if_neg]
    simpa [List.all_eq_true] using hall

/-- Witness for C8 on a concrete same-length input. -/
theorem claim8_witness :
    Grid.from_rows [[1, 2], [3, 4]] =
      .ok (Grid.mk ⟨2, 2⟩ [[1, 2], [3, 4]] ([1, 2] : List Nat).length) :=
  (claim8_from_rows [1, 2] [[3, 4]]).1 (by decide)


/-! Row insertion and removal (`Grid::insert_row`, `Grid::remove_row`). -/

/-- `Vec::insert(i, x)`: shift-and-splice at `i` (caller must have
`i ≤ len`, otherwise `Vec::insert` panics). -/
def listInsert (l : List T) (i : Nat) (x : T) : List T :=
  l.take i ++ x :: l.drop i

/-- `Vec::remove(i)`: remove the element at `i`, shifting the rest left
(caller must have `i < len`, otherwise `Vec::remove` panics). -/
def listRemove (l : List T) (i : Nat) : List T :=
  l.take i ++ l.drop (i + 1)

theorem listInsert_length (l : List T) (i : Nat) (x : T) (h : i ≤ l.length) :
    (listInsert l i x).length = l.length + 1 := by
  unfold listInsert
  simp
  omega

theorem listRemove_listInsert (l : List T) (i : Nat) (x : T) (h : i ≤ l.length) :
    listRemove (listInsert l i x) i = l := by
  unfold listRemove listInsert
  have htake : ((l.take i ++ x :: l.drop i).take i) = l.take i := by
    have : i = (l.take i).length := (List.length_take_of_le h).symm
    calc (l.take i ++ x :: l.drop i).take i
        = (l.take i ++ x :: l.drop i).take (l.take i).length := by rw [← this]
      _ = l.take i := List.take_left _ _
  have hdrop : ((l.take i ++ x :: l.drop i).drop (i + 1)) = l.drop i := by
    have h1 : (l.take i ++ x :: l.drop i).drop (i + 1) =
        ((l.take i ++ [x]) ++ l.drop i).drop (i + 1) := by simp
    have h2 : (l.take i ++ [x]).length = i + 1 := by
      simp [List.length_take_of_le h]
    rw [h1, ← h2, List.drop_left]
  rw [htake, hdrop, List.take_append_drop]

theorem listInsert_getElem? (l : List T) (i : Nat) (x : T) (h : i ≤ l.length)
    (j : Nat) :
    (listInsert l i x)[j]? =
      if j < i then l[j]? else if j = i then some x else l[j - 1]? := by
  unfold listInsert
  have htl : (l.take i).length = i := List.length_take_of_le h
  by_cases hj : j < i
  · rw [if_pos hj, List.getElem?_append, if_pos (by omega)]
    rw [List.getElem?_take, if_pos hj]
  · rw [if_neg hj, List.getElem?_append_right (by omega)]
    by_cases hji : j = i
    · rw [if_pos hji, htl, hji]
      simp
    · rw [if_neg hji, htl]
      have hji2 : i < j := by omega
      have : j - i = (j - i - 1) + 1 := by omega
      rw [this]
      simp only [List.getElem?_cons_succ]
      rw [List.getElem?_drop]
      congr 1
      omega

theorem listRemove_getElem? (l : List T) (i : Nat) (j : Nat) :
    (listRemove l i)[j]? = if j < i then l[j]? else l[j + 1]? := by
  unfold listRemove
  by_cases hj : j < i
  · rw [if_pos hj]
    by_cases hjl : j < l.length
    · rw [List.getElem?_append, if_pos (by simp; omega)]
      rw [List.getElem?_take, if_pos hj]
    · rw [List.getElem?_eq_none (by simp; omega), List.getElem?_eq_none (by omega)]
  · rw [if_neg hj]
    by_cases hil : i ≤ l.length
    · have htl : (l.take i).length = i := List.length_take_of_le hil
      rw [List.getElem?_append_right (by omega), htl, List.getElem?_drop]
      congr 1
      omega
    · have htl : (l.take i).length = l.length := by simp; omega
      rw [List.getElem?_append_right (by omega), htl, List.getElem?_drop]
      rw [List.getElem?_eq_none (by omega), List.getElem?_eq_none (by omega)]

theorem dropLast_append_last (l : List T) (x : T)
    (h : l[l.length - 1]? = some x) : l.dropLast ++ [x] = l := by
  induction l with
  | nil => simp at h
  | cons a l ih =>
    cases l with
    | nil => simp at h; simp [h]
    | cons b l =>
      have h2 : (b :: l)[(b :: l).length - 1]? = some x := by
        have : (a :: b :: l).length - 1 = ((b :: l).length - 1) + 1 := by
          simp
        rw [this, List.getElem?_cons_succ] at h
        exact h
      have := ih h2
      simp only [List.dropLast_cons₂, List.cons_append]
      rw [this]

/-- Mirrors `Grid::insert_row`: `assert!(!(index > self.size.height))`
(`OutOfBounds`), `assert_eq!(row.len(), self.size.width)` (`ShapeError`);
when a spare row-buffer exists (`size.height < rows.len()`) the last
buffer is popped before splicing, otherwise the buffer list simply grows;
`size.height` is incremented.  The `Panic` guards model `Vec::insert`'s
own index check. -/
def Grid.insert_row (g : Grid T) (index : Nat) (row : List T) :
    Except GridError (Grid T) :=
  if index > g.size.height then .error .OutOfBounds
  else if row.length ≠ g.size.width then .error .ShapeError
  else if g.size.height < g.rows.length then
    if index ≤ g.rows.dropLast.length then
      .ok (Grid.mk ⟨g.size.width, g.size.height + 1⟩
        (listInsert g.rows.dropLast index row) g.row_capacity)
    else .error .Panic
  else
    if index ≤ g.rows.length then
      .ok (Grid.mk ⟨g.size.width, g.size.height + 1⟩
        (listInsert g.rows index row) g.row_capacity)
    else .error .Panic

/-- Mirrors `Grid::remove_row`: `assert!(index < self.size.height)`
(`OutOfBounds`), then `rows.remove(index)` followed by pushing a fresh
empty row-buffer (`Vec::with_capacity(self.row_capacity)`), and
`size.height` is decremented.  The `Panic` guard models `Vec::remove`'s
own index check. -/
def Grid.remove_row (g : Grid T) (index : Nat) : Except GridError (Grid T) :=
  if index < g.size.height then
    if index < g.rows.length then
      .ok (Grid.mk ⟨g.size.width, g.size.height - 1⟩
        (listRemove g.rows index ++ [[]]) g.row_capacity)
    else .error .Panic
  else .error .OutOfBounds

/-- Claim C7: on any well-formed grid, inserting a row of the grid's
width at an index `i ≤ height` and then removing the row at the same
index restores the original size and the original element at every
in-bounds coordinate (in fact, when a spare row-buffer existed the grid
is restored verbatim). -/
theorem claim7_insert_remove_row {T : Type} (g : Grid T) (index : Nat)
    (row : List T) (hw : g.WF) (hidx : index ≤ g.size.height)
    (hlen : row.length = g.size.width) :
    ∃ g1 g2, g.insert_row index row = .ok g1 ∧ g1.remove_row index = .ok g2 ∧
      g2.size = g.size ∧ ∀ c, g.inBounds c → g2.value c = g.value c := by
  by_cases hspare : g.size.height < g.rows.length
  · -- a spare row-buffer exists: it is empty by WF, so the grid is
    -- restored verbatim
    have hlen1 : g.rows.dropLast.length = g.rows.length - 1 :=
      List.length_dropLast g.rows
    have hidx1 : index ≤ g.rows.dropLast.length := by omega
    have hg1 : g.insert_row index row = .ok (Grid.mk ⟨g.size.width, g.size.height + 1⟩
        (listInsert g.rows.dropLast index row) g.row_capacity) := by
      unfold Grid.insert_row
      rw [if_neg (by omega), if_neg (by omega), if_pos hspare, if_pos hidx1]
    have hlen2 : (listInsert g.rows.dropLast index row).length = g.rows.length := by
      rw [listInsert_length _ _ _ hidx1]
      omega
    have hg2 : (Grid.mk ⟨g.size.width, g.size.height + 1⟩
        (listInsert g.rows.dropLast index row) g.row_capacity : Grid T).remove_row index =
        .ok (Grid.mk ⟨g.size.width, g.size.height⟩ (g.rows.dropLast ++ [[]]) g.row_capacity) := by
      unfold Grid.remove_row
      rw [if_pos (by show index < g.size.height + 1; omega),
        if_pos (by show index < (listInsert g.rows.dropLast index row).length; omega)]
      rw [listRemove_listInsert _ _ _ hidx1]
      simp
    have hlast : g.rows[g.rows.length - 1]? = some [] := by
      have hne : g.rows.length - 1 < g.rows.length := by omega
      have := hw.2.2 (g.rows.length - 1) hne
      rw [if_neg (by omega)] at this
      rw [List.getD_eq_getElem?_getD, List.getElem?_eq_getElem hne] at this
      simp at this
      rw [List.getElem?_eq_getElem hne, this]
    have hrows : g.rows.dropLast ++ [[]] = g.rows :=
      dropLast_append_last g.rows [] hlast
    refine ⟨_, _, hg1, hg2, by simp, ?_⟩
    intro c hc
    have : (Grid.mk ⟨g.size.width, g.size.height⟩ (g.rows.dropLast ++ [[]]) g.row_capacity : Grid T)
        = g := by
      rw [hrows]
    rw [this]
  · -- no spare row-buffer: a fresh empty one appears at the end, all
    -- original elements and the size are restored
    have hlen0 : g.size.height = g.rows.length := by
      have := hw.2.1; omega
    have hidx0 : index ≤ g.rows.length := by omega
    have hg1 : g.insert_row index row = .ok (Grid.mk ⟨g.size.width, g.size.height + 1⟩
        (listInsert g.rows index row) g.row_capacity) := by
      unfold Grid.insert_row
      rw [if_neg (by omega), if_neg (by omega), if_neg hspare, if_pos hidx0]
    have hlen2 : (listInsert g.rows index row).length = g.rows.length + 1 :=
      listInsert_length _ _ _ hidx0
    have hg2 : (Grid.mk ⟨g.size.width, g.size.height + 1⟩
        (listInsert g.rows index row) g.row_capacity : Grid T).remove_row index =
        .ok (Grid.mk ⟨g.size.width, g.size.height⟩ (g.rows ++ [[]]) g.row_capacity) := by
      unfold Grid.remove_row
      rw [if_pos (by show index < g.size.height + 1; omega),
        if_pos (by show index < (listInsert g.rows index row).length; omega)]
      rw [listRemove_listInsert _ _ _ hidx0]
      simp
    refine ⟨_, _, hg1, hg2, by simp, ?_⟩
    intro c hc
    refine @Grid.value_congr T g
      (Grid.mk ⟨g.size.width, g.size.height⟩ (g.rows ++ [[]]) g.row_capacity) c rfl ?_
    show rowsLookup (g.rows ++ [[]]) c = rowsLookup g.rows c
    unfold rowsLookup
    rw [List.getElem?_append, if_pos (by have := hc.2; omega)]

/-- Witness for C7 at a concrete grid, index and row. -/
theorem claim7_witness :
    (Grid.mk ⟨2, 2⟩ [[1, 2], [3, 4]] 2 : Grid Nat).WF ∧ 1 ≤ 2 ∧
    ([9, 9] : List Nat).length = 2 ∧
    ∃ g1 g2, (Grid.mk ⟨2, 2⟩ [[1, 2], [3, 4]] 2 : Grid Nat).insert_row 1 [9, 9] = .ok g1 ∧
      g1.remove_row 1 = .ok g2 ∧
      g2.size = (Grid.mk ⟨2, 2⟩ [[1, 2], [3, 4]] 2 : Grid Nat).size ∧
      ∀ c, (Grid.mk ⟨2, 2⟩ [[1, 2], [3, 4]] 2 : Grid Nat).inBounds c →
        g2.value c = (Grid.mk ⟨2, 2⟩ [[1, 2], [3, 4]] 2 : Grid Nat).value c :=
  ⟨by decide, by decide, by decide,
    claim7_insert_remove_row (Grid.mk ⟨2, 2⟩ [[1, 2], [3, 4]] 2) 1 [9, 9]
      (by decide) (by decide) (by decide)⟩


/-! Iterators (`src/iterator_grid.rs`, `src/iterator_row.rs`,
`src/iterator_column.rs`).  Each mirrors the Rust struct: a borrowed grid
plus a cursor; `next` mirrors the `Iterator::next` implementation and
`coordinate` the `GridIterator::coordinate` implementation. -/

/-- Mirrors `IteratorGrid`: the grid and the cursor `coordinate`
(which starts at `(0, 0)` and is advanced past each produced element). -/
structure IteratorGrid (T : Type) where
  grid : Grid T
  coordinate : Coordinate
deriving DecidableEq, Repr

/-- Mirrors `IteratorGrid::next`: when `coordinate.y == height` the
iteration is over; otherwise the element at `coordinate` is produced via
`Grid::value` (whose `assert!` can fail — e.g. when `width = 0` but
`height > 0`), then `x` is incremented, wrapping to the next row when it
reaches `width`. -/
def IteratorGrid.next (it : IteratorGrid T) :
    Except GridError (Option (T × IteratorGrid T)) :=
  if it.coordinate.y = it.grid.size.height then .ok none
  else
    (it.grid.value it.coordinate).bind fun v =>
      if it.coordinate.x + 1 = it.grid.size.width then
        .ok (some (v, ⟨it.grid, ⟨0, it.coordinate.y + 1⟩⟩))
      else
        .ok (some (v, ⟨it.grid, ⟨it.coordinate.x + 1, it.coordinate.y⟩⟩))

/-- Mirrors `Grid::iterator`: `IteratorGrid::new` starts at `(0, 0)`. -/
def Grid.iterator (g : Grid T) : IteratorGrid T :=
  ⟨g, ⟨0, 0⟩⟩

/-- Mirrors `IteratorRow`: a `Row` view (grid + `row_index`) plus the
position `index` along the row. -/
structure IteratorRow (T : Type) where
  grid : Grid T
  row_index : Nat
  index : Nat
deriving DecidableEq, Repr

/-- Mirrors `IteratorRow::coordinate`: `coord!(self.index, self.row.index)`. -/
def IteratorRow.coordinate (it : IteratorRow T) : Coordinate :=
  ⟨it.index, it.row_index⟩

/-- Mirrors `IteratorRow::next`: stop when `index == row.length()`
(the grid width), else produce `row.value(index)` (that is,
`grid.value(coord!(index, row.index))`) and advance. -/
def IteratorRow.next (it : IteratorRow T) :
    Except GridError (Option (T × IteratorRow T)) :=
  if it.index = it.grid.size.width then .ok none
  else
    (it.grid.value ⟨it.index, it.row_index⟩).bind fun v =>
      .ok (some (v, ⟨it.grid, it.row_index, it.index + 1⟩))

/-- Mirrors `IteratorColumn`: a `Column` view (grid + `col_index`) plus
the position `index` along the column. -/
structure IteratorColumn (T : Type) where
  grid : Grid T
  col_index : Nat
  index : Nat
deriving DecidableEq, Repr

/-- Mirrors `IteratorColumn::coordinate`: `coord!(self.column.index, self.index)`. -/
def IteratorColumn.coordinate (it : IteratorColumn T) : Coordinate :=
  ⟨it.col_index, it.index⟩

/-- Mirrors `IteratorColumn::next`: stop when `index == column.length()`
(the grid height), else produce `column.value(index)` (that is,
`grid.value(coord!(column.index, index))`) and advance. -/
def IteratorColumn.next (it : IteratorColumn T) :
    Except GridError (Option (T × IteratorColumn T)) :=
  if it.index = it.grid.size.height then .ok none
  else
    (it.grid.value ⟨it.col_index, it.index⟩).bind fun v =>
      .ok (some (v, ⟨it.grid, it.col_index, it.index + 1⟩))

/-- Claim C5 (counterexample): on the grid `[[1, 2], [3, 4]]`, the first
`next()` call of the whole-grid iterator produces the element `1`, which
lives at coordinate `(0, 0)`, yet `coordinate()` afterwards reports
`(1, 0)` — the position of the not-yet-produced element `2` — so
`coordinate()` does not return the coordinate of the last produced
item. -/
theorem claim5_counterexample :
    IteratorGrid.next ((Grid.mk ⟨2, 2⟩ [[1, 2], [3, 4]] 2 : Grid Nat).iterator) =
      .ok (some (1, ⟨Grid.mk ⟨2, 2⟩ [[1, 2], [3, 4]] 2, ⟨1, 0⟩⟩)) ∧
    (Grid.mk ⟨2, 2⟩ [[1, 2], [3, 4]] 2 : Grid Nat).value ⟨0, 0⟩ = .ok 1 ∧
    (⟨1, 0⟩ : Coordinate) ≠ ⟨0, 0⟩ :=
  ⟨rfl, rfl, by decide⟩

/-- Claim C5 (amended): for each of the three iterators, `coordinate()`
reports the coordinate of the element the NEXT call to `next()` will
produce (the cursor position), not of the last produced item: whenever
`next()` produces an element, that element is the grid element at the
coordinate reported immediately BEFORE the call, and the underlying grid
is unchanged.  (This is exactly the protocol the
`enumerate_coordinate()` adapter relies on: it reads `coordinate()`
first and then calls `next()`.) -/
theorem claim5_coordinate_cursor {T : Type} :
    (∀ (it it' : IteratorGrid T) (v : T), it.next = .ok (some (v, it')) →
      it.grid.value it.coordinate = .ok v ∧ it'.grid = it.grid) ∧
    (∀ (it it' : IteratorRow T) (v : T), it.next = .ok (some (v, it')) →
      it.grid.value it.coordinate = .ok v ∧ it'.grid = it.grid) ∧
    (∀ (it it' : IteratorColumn T) (v : T), it.next = .ok (some (v, it')) →
      it.grid.value it.coordinate = .ok v ∧ it'.grid = it.grid) := by
  refine ⟨?_, ?_, ?_⟩
  · intro it it' v h
    unfold IteratorGrid.next at h
    split at h
    · exact absurd h (by simp)
    · cases hv : it.grid.value it.coordinate with
      | error e => rw [hv] at h; exact absurd h (by simp [Except.bind])
      | ok w =>
        rw [hv, except_bind_ok] at h
        split at h
        all_goals
          simp only [Except.ok.injEq, Option.some.injEq, Prod.mk.injEq] at h
          obtain ⟨hw, hit⟩ := h
          subst hw
          exact ⟨rfl, by rw [← hit]⟩
  · intro it it' v h
    unfold IteratorRow.next at h
    split at h
    · exact absurd h (by simp)
    · cases hv : it.grid.value ⟨it.index, it.row_index⟩ with
      | error e => rw [hv] at h; exact absurd h (by simp [Except.bind])
      | ok w =>
        rw [hv, except_bind_ok] at h
        simp only [Except.ok.injEq, Option.some.injEq, Prod.mk.injEq] at h
        obtain ⟨hw, hit⟩ := h
        subst hw
        exact ⟨hv, by rw [← hit]⟩
  · intro it it' v h
    unfold IteratorColumn.next at h
    split at h
    · exact absurd h (by simp)
    · cases hv : it.grid.value ⟨it.col_index, it.index⟩ with
      | error e => rw [hv] at h; exact absurd h (by simp [Except.bind])
      | ok w =>
        rw [hv, except_bind_ok] at h
        simp only [Except.ok.injEq, Option.some.injEq, Prod.mk.injEq] at h
        obtain ⟨hw, hit⟩ := h
        subst hw
        exact ⟨hv, by rw [← hit]⟩

/-- Witness for C5: the three implications applied at concrete iterator
states of the grid `[[1, 2], [3, 4]]`. -/
theorem claim5_witness :
    ((Grid.mk ⟨2, 2⟩ [[1, 2], [3, 4]] 2 : Grid Nat).value
        (IteratorGrid.mk (Grid.mk ⟨2, 2⟩ [[1, 2], [3, 4]] 2) ⟨1, 0⟩).coordinate = .ok 2 ∧
      (IteratorGrid.mk (Grid.mk ⟨2, 2⟩ [[1, 2], [3, 4]] 2 : Grid Nat) ⟨0, 1⟩).grid =
        Grid.mk ⟨2, 2⟩ [[1, 2], [3, 4]] 2) ∧
    ((Grid.mk ⟨2, 2⟩ [[1, 2], [3, 4]] 2 : Grid Nat).value
        (IteratorRow.mk (Grid.mk ⟨2, 2⟩ [[1, 2], [3, 4]] 2) 1 0).coordinate = .ok 3 ∧
      (IteratorRow.mk (Grid.mk ⟨2, 2⟩ [[1, 2], [3, 4]] 2 : Grid Nat) 1 1).grid =
        Grid.mk ⟨2, 2⟩ [[1, 2], [3, 4]] 2) ∧
    ((Grid.mk ⟨2, 2⟩ [[1, 2], [3, 4]] 2 : Grid Nat).value
        (IteratorColumn.mk (Grid.mk ⟨2, 2⟩ [[1, 2], [3, 4]] 2) 1 1).coordinate = .ok 4 ∧
      (IteratorColumn.mk (Grid.mk ⟨2, 2⟩ [[1, 2], [3, 4]] 2 : Grid Nat) 1 2).grid =
        Grid.mk ⟨2, 2⟩ [[1, 2], [3, 4]] 2) :=
  ⟨(claim5_coordinate_cursor.1 _ _ 2 rfl),
   (claim5_coordinate_cursor.2.1 _ _ 3 rfl),
   (claim5_coordinate_cursor.2.2 _ _ 4 rfl)⟩

/-- The state of the whole-grid iterator after `k` produced elements
(valid while `k ≤ width * height`, `width > 0`). -/
def itFrom (g : Grid T) (k : Nat) : IteratorGrid T :=
  ⟨g, ⟨k % g.size.width, k / g.size.width⟩⟩


theorem IteratorGrid.next_mk (g : Grid T) (x y : Nat) :
    (IteratorGrid.mk g ⟨x, y⟩).next =
      if y = g.size.height then .ok none
      else
        (g.value ⟨x, y⟩).bind fun v =>
          if x + 1 = g.size.width then .ok (some (v, ⟨g, ⟨0, y + 1⟩⟩))
          else .ok (some (v, ⟨g, ⟨x + 1, y⟩⟩)) := rfl

/-- Claim C6 (counterexample): on the reachable grid of size
`(width, height) = (0, 1)` — an empty grid in the spec's sense — the
first `next()` call does not return `None`: the `Grid::value` call
inside `next` trips the `x < width` assertion, so it fails with
`OutOfBounds`. -/
theorem claim6_counterexample :
    (Grid.mk ⟨0, 1⟩ [[]] 0 : Grid Nat).WF ∧
    IteratorGrid.next ((Grid.mk ⟨0, 1⟩ [[]] 0 : Grid Nat).iterator) =
      .error .OutOfBounds :=
  ⟨by decide, rfl⟩

/-- Claim C6 (amended): on a well-formed grid with `width > 0`, the
whole-grid iterator starts at state `itFrom g 0` and the `k`-th `next()`
call (for `k < width * height`) produces exactly the element at the
row-major coordinate `(k % width, k / width)` and moves to state
`itFrom g (k + 1)`; after all `width * height` elements the next call
returns `none`.  When `height = 0` the very first call returns `none`;
but when `width = 0` and `height > 0` the first call fails with
`OutOfBounds` instead of returning `none` (this is where the original
claim fails). -/
theorem claim6_row_major_iteration {T : Type} (g : Grid T) (hw : g.WF) :
    g.iterator = itFrom g 0 ∧
    (g.size.height = 0 → (g.iterator).next = .ok none) ∧
    (g.size.width = 0 → 0 < g.size.height →
      (g.iterator).next = .error .OutOfBounds) ∧
    (0 < g.size.width →
      (∀ k, k < g.size.width * g.size.height →
        ∃ v, g.value ⟨k % g.size.width, k / g.size.width⟩ = .ok v ∧
          (itFrom g k).next = .ok (some (v, itFrom g (k + 1)))) ∧
      (itFrom g (g.size.width * g.size.height)).next = .ok none) := by
  refine ⟨?_, ?_, ?_, ?_⟩
  · unfold Grid.iterator itFrom
    rw [Nat.zero_mod, Nat.zero_div]
  · intro hh
    unfold Grid.iterator
    rw [IteratorGrid.next_mk, if_pos hh.symm]
  · intro hw0 hh
    unfold Grid.iterator
    rw [IteratorGrid.next_mk, if_neg (by omega),
      Grid.value_oob (by unfold Grid.inBounds; omega)]
    rfl
  · intro hw0
    constructor
    · intro k hk
      have hy : k / g.size.width < g.size.height := by
        rw [Nat.div_lt_iff_lt_mul hw0]
        rw [Nat.mul_comm] at hk
        exact hk
      have hx : k % g.size.width < g.size.width := Nat.mod_lt _ hw0
      have hin : g.inBounds ⟨k % g.size.width, k / g.size.width⟩ := ⟨hx, hy⟩
      obtain ⟨v, hv⟩ := hw.lookup_isSome hin
      refine ⟨v, Grid.value_eq_ok hin hv, ?_⟩
      unfold itFrom
      rw [IteratorGrid.next_mk, if_neg (by omega),
        Grid.value_eq_ok hin hv, except_bind_ok]
      have hq := Nat.div_add_mod k g.size.width
      by_cases hxe : k % g.size.width + 1 = g.size.width
      · rw [if_pos hxe]
        have h1 : (k / g.size.width + 1) * g.size.width =
            (k / g.size.width) * g.size.width + g.size.width := by ring
        have h2 : g.size.width * (k / g.size.width) =
            (k / g.size.width) * g.size.width := Nat.mul_comm _ _
        have hk1 : k + 1 = (k / g.size.width + 1) * g.size.width := by omega
        rw [hk1, Nat.mul_mod_left, Nat.mul_div_cancel _ hw0]
      · rw [if_neg hxe]
        have h2 : g.size.width * (k / g.size.width) =
            (k / g.size.width) * g.size.width := Nat.mul_comm _ _
        have h3 : k + 1 = (k % g.size.width + 1) +
            (k / g.size.width) * g.size.width := by omega
        have hmod : (k + 1) % g.size.width = k % g.size.width + 1 := by
          rw [h3, Nat.add_mul_mod_self_right]
          exact Nat.mod_eq_of_lt (by omega)
        have hdiv : (k + 1) / g.size.width = k / g.size.width := by
          rw [h3, Nat.add_mul_div_right _ _ hw0, Nat.div_eq_of_lt (by omega),
            Nat.zero_add]
        rw [hmod, hdiv]
    · unfold itFrom
      have hmod : (g.size.width * g.size.height) % g.size.width = 0 :=
        Nat.mul_mod_right _ _
      have hdiv : (g.size.width * g.size.height) / g.size.width =
          g.size.height := by
        rw [Nat.mul_comm]
        exact Nat.mul_div_cancel _ hw0
      rw [hmod, hdiv, IteratorGrid.next_mk, if_pos rfl]

/-- Witness for C6 at the concrete grid `[[1, 2], [3, 4]]`. -/
theorem claim6_witness :
    (Grid.mk ⟨2, 2⟩ [[1, 2], [3, 4]] 2 : Grid Nat).WF ∧
    ((Grid.mk ⟨2, 2⟩ [[1, 2], [3, 4]] 2 : Grid Nat).iterator =
        itFrom (Grid.mk ⟨2, 2⟩ [[1, 2], [3, 4]] 2) 0 ∧
      ((Grid.mk ⟨2, 2⟩ [[1, 2], [3, 4]] 2 : Grid Nat).size.height = 0 →
        ((Grid.mk ⟨2, 2⟩ [[1, 2], [3, 4]] 2 : Grid Nat).iterator).next = .ok none) ∧
      ((Grid.mk ⟨2, 2⟩ [[1, 2], [3, 4]] 2 : Grid Nat).size.width = 0 →
        0 < (Grid.mk ⟨2, 2⟩ [[1, 2], [3, 4]] 2 : Grid Nat).size.height →
        ((Grid.mk ⟨2, 2⟩ [[1, 2], [3, 4]] 2 : Grid Nat).iterator).next =
          .error .OutOfBounds) ∧
      (0 < (Grid.mk ⟨2, 2⟩ [[1, 2], [3, 4]] 2 : Grid Nat).size.width →
        (∀ k, k < (Grid.mk ⟨2, 2⟩ [[1, 2], [3, 4]] 2 : Grid Nat).size.width *
            (Grid.mk ⟨2, 2⟩ [[1, 2], [3, 4]] 2 : Grid Nat).size.height →
          ∃ v, (Grid.mk ⟨2, 2⟩ [[1, 2], [3, 4]] 2 : Grid Nat).value
              ⟨k % (Grid.mk ⟨2, 2⟩ [[1, 2], [3, 4]] 2 : Grid Nat).size.width,
               k / (Grid.mk ⟨2, 2⟩ [[1, 2], [3, 4]] 2 : Grid Nat).size.width⟩ = .ok v ∧
            (itFrom (Grid.mk ⟨2, 2⟩ [[1, 2], [3, 4]] 2) k).next =
              .ok (some (v, itFrom (Grid.mk ⟨2, 2⟩ [[1, 2], [3, 4]] 2) (k + 1)))) ∧
        (itFrom (Grid.mk ⟨2, 2⟩ [[1, 2], [3, 4]] 2)
          ((Grid.mk ⟨2, 2⟩ [[1, 2], [3, 4]] 2 : Grid Nat).size.width *
            (Grid.mk ⟨2, 2⟩ [[1, 2], [3, 4]] 2 : Grid Nat).size.height)).next = .ok none)) :=
  ⟨by decide, claim6_row_major_iteration (Grid.mk ⟨2, 2⟩ [[1, 2], [3, 4]] 2) (by decide)⟩


/-! Mutable column view operations (`src/column_mut.rs`).  A `ColumnMut`
is the pair (grid, column index); `Grid::column_mut(index)` asserts
`index < size.width`.  `ColumnMut::swap_value(a, b)` delegates to
`Grid::swap_value(coord!(index, a), coord!(index, b))`, so the view
operations below are loops of `Grid::swap_value` calls. -/

/-- Run a fallible loop body over a list of loop indices, propagating
the first failure (the behaviour of a Rust `for` loop whose body can
panic). -/
def foldE {α : Type} (f : α → Nat → Except GridError α) :
    α → List Nat → Except GridError α
  | a, [] => .ok a
  | a, j :: js =>
    match f a j with
    | .ok a2 => foldE f a2 js
    | .error e => .error e

theorem foldE_cons_ok {α : Type} (f : α → Nat → Except GridError α)
    (a a2 : α) (j : Nat) (js : List Nat) (h : f a j = .ok a2) :
    foldE f a (j :: js) = foldE f a2 js := by
  conv_lhs => unfold foldE
  rw [h]

theorem foldE_cons_error {α : Type} (f : α → Nat → Except GridError α)
    (a : α) (e : GridError) (j : Nat) (js : List Nat) (h : f a j = .error e) :
    foldE f a (j :: js) = .error e := by
  conv_lhs => unfold foldE
  rw [h]

theorem foldE_nil {α : Type} (f : α → Nat → Except GridError α) (a : α) :
    foldE f a [] = .ok a := rfl

/-- Mirrors `ColumnMut::rotate_top` (through `Grid::column_mut`):
`assert!(number <= self.length())`, then
`let mut i = number; for j in 0..length-1 { self.swap_value(i % length, j); i += 1 }`
— so the body at iteration `j` swaps positions `(number + j) % length`
and `j` of the column.  When `length = 0` the Rust loop panics (the
`length - 1` bound underflows in debug builds; `i % 0` divides by zero
in release builds), modelled as `Panic`. -/
def Grid.col_rotate_top (g : Grid T) (index number : Nat) :
    Except GridError (Grid T) :=
  if index < g.size.width then
    if number ≤ g.size.height then
      if g.size.height = 0 then .error .Panic
      else
        foldE (fun g2 j =>
          g2.swap_value ⟨index, (number + j) % g.size.height⟩ ⟨index, j⟩)
          g (List.range (g.size.height - 1))
    else .error .OutOfBounds
  else .error .OutOfBounds

/-- Mirrors `ColumnMut::rotate_bottom` (through `Grid::column_mut`):
the bounds assert is COMMENTED OUT in the source, then
`let mut i = number + length; for j in (1..length).rev() { self.swap_value(i % length, j); i -= 1 }`
— so the body at iteration `j` (descending from `length - 1` to `1`)
swaps positions `(number + 1 + j) % length` and `j` of the column. -/
def Grid.col_rotate_bottom (g : Grid T) (index number : Nat) :
    Except GridError (Grid T) :=
  if index < g.size.width then
    foldE (fun g2 j =>
      g2.swap_value ⟨index, (number + 1 + j) % g.size.height⟩ ⟨index, j⟩)
      g ((List.range' 1 (g.size.height - 1)).reverse)
  else .error .OutOfBounds

/-- Mirrors `ColumnMut::reverse` (through `Grid::column_mut`):
`while index < length / 2 { self.swap(index, length - index - 1) }`. -/
def Grid.col_reverse (g : Grid T) (index : Nat) : Except GridError (Grid T) :=
  if index < g.size.width then
    foldE (fun g2 i =>
      g2.swap_value ⟨index, i⟩ ⟨index, g.size.height - i - 1⟩)
      g (List.range (g.size.height / 2))
  else .error .OutOfBounds

/-- Claim C1: the column rotation code contradicts its own documented
contract (the doc comments promise a cyclic rotation by `number` and, for
`rotate_bottom`, a panic when `number > length`; the claim restates that
contract).  Evaluating the embedded code on the single-column grid
`[1, 2, 3]` (height `L = 3`):
`rotate_bottom(0)` is not a no-op — it rotates the column by one toward
the bottom, giving `[3, 1, 2]`;
`rotate_bottom(4)` with `4 > L` succeeds instead of failing with
`OutOfBounds` (the bounds `assert!` is commented out in the source);
and on the single-column grid `[1, 2, 3, 4]`, `rotate_top(2)` produces
`[1, 4, 3, 2]`, which is not a cyclic rotation of the column at all
(a rotation by 2 toward the top would give `[3, 4, 1, 2]`). -/
theorem claim1_rotate_code_bug :
    Grid.col_rotate_bottom (Grid.mk ⟨1, 3⟩ [[1], [2], [3]] 1 : Grid Nat) 0 0 =
      .ok (Grid.mk ⟨1, 3⟩ [[3], [1], [2]] 1) ∧
    Grid.col_rotate_bottom (Grid.mk ⟨1, 3⟩ [[1], [2], [3]] 1 : Grid Nat) 0 4 =
      .ok (Grid.mk ⟨1, 3⟩ [[3], [1], [2]] 1) ∧
    Grid.col_rotate_top (Grid.mk ⟨1, 4⟩ [[1], [2], [3], [4]] 1 : Grid Nat) 0 2 =
      .ok (Grid.mk ⟨1, 4⟩ [[1], [4], [3], [2]] 1) :=
  ⟨rfl, rfl, rfl⟩


/-! Rotations (`Grid::rotate_left`, `Grid::rotate_right`).  Both build a
fresh store of swapped dimensions (`Self::with_capacity(size!(height,
width))`, i.e. `width` empty row-buffers and `row_capacity = height`),
then for each source position pop from the source row and push into the
destination row, and finally swap the new store into place. -/

/-- `grid.rows[j].push(self.rows[i].pop().unwrap())` — one iteration of
the rotation loops.  The `Panic` branches are the `unwrap` on `None`
(and, for `rows[i]`, an out-of-range source index). -/
def rotStep (i : Nat) (st : List (List T) × List (List T)) (j : Nat) :
    Except GridError (List (List T) × List (List T)) :=
  match st.1[i]? with
  | none => .error .Panic
  | some row =>
    match row.getLast? with
    | none => .error .Panic
    | some x => .ok (st.1.set i row.dropLast, st.2.set j (st.2.getD j [] ++ [x]))

/-- Mirrors `Grid::rotate_left`:
`for i in 0..height { for j in 0..width { grid.rows[j].push(self.rows[i].pop().unwrap()) } }`
into a store of `width` fresh row-buffers, final size
`(height, width)` and `row_capacity = height`. -/
def Grid.rotate_left (g : Grid T) : Except GridError (Grid T) :=
  match foldE (fun st i => foldE (rotStep i) st (List.range g.size.width))
      (g.rows, List.replicate g.size.width []) (List.range g.size.height) with
  | .error e => .error e
  | .ok st => .ok (Grid.mk ⟨g.size.height, g.size.width⟩ st.2 g.size.height)

/-- Mirrors `Grid::rotate_right`: the same loops with both ranges
reversed (`for i in (0..height).rev() { for j in (0..width).rev() { ... } }`). -/
def Grid.rotate_right (g : Grid T) : Except GridError (Grid T) :=
  match foldE (fun st i => foldE (rotStep i) st (List.range g.size.width).reverse)
      (g.rows, List.replicate g.size.width []) (List.range g.size.height).reverse with
  | .error e => .error e
  | .ok st => .ok (Grid.mk ⟨g.size.height, g.size.width⟩ st.2 g.size.height)

/-- Append one element (taken from `r`) to each destination row. -/
def pushEach (dst : List (List T)) (r : List T) : List (List T) :=
  List.zipWith (fun d x => d ++ [x]) dst r

/-- Distribute a list of source rows over the destination rows. -/
def accPush (rs : List (List T)) (dst : List (List T)) : List (List T) :=
  rs.foldl pushEach dst

/-! Small list bookkeeping lemmas used by the rotation proofs. -/

theorem range_one_concat (s n : Nat) :
    List.range' s (n + 1) = List.range' s n ++ [s + n] := by
  induction n generalizing s with
  | zero => simp
  | succ n ih =>
    rw [List.range'_succ s (n + 1) 1, ih (s + 1), List.range'_succ s n 1]
    have hnn : s + 1 + n = s + (n + 1) := by omega
    rw [hnn]
    rfl

theorem set_at_append {α : Type} (A : List α) (b : α) (rest : List α) (v : α) :
    (A ++ b :: rest).set A.length v = A ++ v :: rest := by
  induction A with
  | nil => rfl
  | cons a A ih => simp [ih]

theorem getD_at_append {α : Type} (A : List α) (b : α) (rest : List α) (d : α) :
    (A ++ b :: rest).getD A.length d = b := by
  rw [List.getD_eq_getElem?_getD, List.getElem?_append_right (Nat.le_refl _)]
  simp

theorem reverse_eq_getLast_cons {α : Type} (r : List α) (hr : r ≠ []) :
    r.reverse = r.getLast hr :: r.dropLast.reverse := by
  conv_lhs => rw [← List.dropLast_append_getLast hr]
  rw [List.reverse_append]
  rfl

theorem zipWith_getElem?_some {α β γ : Type} (f : α → β → γ)
    (as : List α) (bs : List β) (j : Nat) (a : α) (b : β)
    (ha : as[j]? = some a) (hb : bs[j]? = some b) :
    (List.zipWith f as bs)[j]? = some (f a b) := by
  induction as generalizing bs j with
  | nil => simp at ha
  | cons x xs ih =>
    cases bs with
    | nil => simp at hb
    | cons y ys =>
      cases j with
      | zero =>
        simp at ha hb
        simp [ha, hb]
      | succ n =>
        simp at ha hb
        simp [ih ys n ha hb]

theorem filterMap_length_of_isSome {α β : Type} (f : α → Option β)
    (l : List α) (h : ∀ a ∈ l, (f a).isSome) :
    (l.filterMap f).length = l.length := by
  induction l with
  | nil => rfl
  | cons x xs ih =>
    simp only [List.filterMap_cons]
    cases hx : f x with
    | none => exact absurd (h x (by simp)) (by simp [hx])
    | some v => simp [ih (fun a ha => h a (by simp [ha]))]

theorem filterMap_getElem?_bind {α β : Type} (f : α → Option β)
    (l : List α) (h : ∀ a ∈ l, (f a).isSome) (n : Nat) :
    (l.filterMap f)[n]? = l[n]?.bind f := by
  induction l generalizing n with
  | nil => simp
  | cons x xs ih =>
    simp only [List.filterMap_cons]
    cases hx : f x with
    | none => exact absurd (h x (by simp)) (by simp [hx])
    | some v =>
      cases n with
      | zero => simp [hx]
      | succ m => simp [ih (fun a ha => h a (by simp [ha])) m]

theorem drop_set_of_lt {α : Type} (l : List α) (m s : Nat) (a : α)
    (h : m < s) : (l.set m a).drop s = l.drop s := by
  apply List.ext_getElem?
  intro j
  rw [List.getElem?_drop, List.getElem?_drop, List.getElem?_set_ne (by omega)]

theorem take_drop_set_ne {α : Type} (l : List α) (s n m : Nat) (a : α)
    (hm : ∀ j, j < n → s + j ≠ m) :
    ((l.set m a).drop s).take n = (l.drop s).take n := by
  apply List.ext_getElem?
  intro j
  by_cases hj : j < n
  · rw [List.getElem?_take, if_pos hj, List.getElem?_take, if_pos hj,
      List.getElem?_drop, List.getElem?_drop,
      List.getElem?_set_ne (fun he => (hm j hj) he.symm)]
  · rw [List.getElem?_take, if_neg hj, List.getElem?_take, if_neg hj]

theorem rotStep_eq (i : Nat) (src dst : List (List T)) (j : Nat)
    {r : List T} {x : T} (hsrc : src[i]? = some r) (hx : r.getLast? = some x) :
    rotStep i (src, dst) j =
      .ok (src.set i r.dropLast, dst.set j (dst.getD j [] ++ [x])) := by
  simp only [rotStep, hsrc, hx]

/-- The ascending inner rotation loop (used by `rotate_left`):
distributes the source row reversed over the destination rows
`s, s+1, ...`. -/
theorem foldE_rotStep_asc (i : Nat) :
    ∀ (n s : Nat) (src A B C : List (List T)) (r : List T),
      src[i]? = some r → r.length = n → A.length = s → B.length = n →
      foldE (rotStep i) (src, A ++ B ++ C) (List.range' s n) =
        .ok (src.set i [], A ++ pushEach B r.reverse ++ C) := by
  intro n
  induction n with
  | zero =>
    intro s src A B C r hsrc hr hA hB
    have hrnil : r = [] := List.length_eq_zero.mp hr
    have hBnil : B = [] := List.length_eq_zero.mp hB
    subst hrnil
    subst hBnil
    show Except.ok (src, A ++ [] ++ C) = _
    rw [List.set_getElem?_self src i [] hsrc]
    rfl
  | succ n ih =>
    intro s src A B C r hsrc hr hA hB
    have hrne : r ≠ [] := by intro h; rw [h] at hr; simp at hr
    cases B with
    | nil => simp at hB
    | cons b B2 =>
      have hx : r.getLast? = some (r.getLast hrne) :=
        List.getLast?_eq_getLast r hrne
      have hilen : i < src.length := (List.getElem?_eq_some_iff.mp hsrc).1
      rw [List.range'_succ s n 1]
      have hstep := rotStep_eq i src (A ++ (b :: B2) ++ C) s hsrc hx
      have hgetD : (A ++ (b :: B2) ++ C).getD s [] = b := by
        rw [show A ++ (b :: B2) ++ C = A ++ b :: (B2 ++ C) by simp, ← hA]
        exact getD_at_append A b (B2 ++ C) []
      rw [hgetD] at hstep
      have hset : (A ++ (b :: B2) ++ C).set s (b ++ [r.getLast hrne]) =
          A ++ ((b ++ [r.getLast hrne]) :: B2) ++ C := by
        rw [show A ++ (b :: B2) ++ C = A ++ b :: (B2 ++ C) by simp, ← hA,
          set_at_append]
        simp
      rw [hset] at hstep
      rw [foldE_cons_ok _ _ _ _ _ hstep]
      have hB2 : B2.length = n := by simpa using hB
      have hdl : r.dropLast.length = n := by
        rw [List.length_dropLast]; omega
      have hsrc2 : (src.set i r.dropLast)[i]? = some r.dropLast := by
        simp [List.getElem?_set_self hilen]
      have hA2 : (A ++ [b ++ [r.getLast hrne]]).length = s + 1 := by
        simp [hA]
      have hres := ih (s + 1) (src.set i r.dropLast)
        (A ++ [b ++ [r.getLast hrne]]) B2 C r.dropLast hsrc2 hdl hA2 hB2
      rw [show (A ++ [b ++ [r.getLast hrne]]) ++ B2 ++ C =
          A ++ ((b ++ [r.getLast hrne]) :: B2) ++ C by simp] at hres
      rw [hres, List.set_set]
      rw [reverse_eq_getLast_cons r hrne]
      simp [pushEach]

theorem pushEach_append (X : List (List T)) (Y : List T) (u : List T) (v : T)
    (h : X.length = Y.length) :
    pushEach (X ++ [u]) (Y ++ [v]) = pushEach X Y ++ [u ++ [v]] := by
  unfold pushEach
  rw [List.zipWith_append _ _ _ _ _ h]
  rfl

/-- The descending inner rotation loop (used by `rotate_right`):
distributes the source row (not reversed) over the destination rows
`s + n - 1, ..., s`. -/
theorem foldE_rotStep_desc (i : Nat) :
    ∀ (n s : Nat) (src A B C : List (List T)) (r : List T),
      src[i]? = some r → r.length = n → A.length = s → B.length = n →
      foldE (rotStep i) (src, A ++ B ++ C) ((List.range' s n).reverse) =
        .ok (src.set i [], A ++ pushEach B r ++ C) := by
  intro n
  induction n with
  | zero =>
    intro s src A B C r hsrc hr hA hB
    have hrnil : r = [] := List.length_eq_zero.mp hr
    have hBnil : B = [] := List.length_eq_zero.mp hB
    subst hrnil
    subst hBnil
    show Except.ok (src, A ++ [] ++ C) = _
    rw [List.set_getElem?_self src i [] hsrc]
    rfl
  | succ n ih =>
    intro s src A B C r hsrc hr hA hB
    have hrne : r ≠ [] := by intro h; rw [h] at hr; simp at hr
    have hBne : B ≠ [] := by intro h; rw [h] at hB; simp at hB
    have hx : r.getLast? = some (r.getLast hrne) :=
      List.getLast?_eq_getLast r hrne
    have hilen : i < src.length := (List.getElem?_eq_some_iff.mp hsrc).1
    have hBdec : B = B.dropLast ++ [B.getLast hBne] :=
      (List.dropLast_append_getLast hBne).symm
    have hB1 : B.dropLast.length = n := by rw [List.length_dropLast]; omega
    have hr1 : r.dropLast.length = n := by rw [List.length_dropLast]; omega
    rw [range_one_concat s n, List.reverse_append]
    rw [show ([s + n] : List Nat).reverse ++ (List.range' s n).reverse =
        (s + n) :: (List.range' s n).reverse from rfl]
    have hsplit : A ++ B ++ C = (A ++ B.dropLast) ++ (B.getLast hBne) :: C := by
      conv_lhs => rw [hBdec]
      simp
    have hlen2 : (A ++ B.dropLast).length = s + n := by simp [hA, hB1]
    have hstep := rotStep_eq i src (A ++ B ++ C) (s + n) hsrc hx
    have hgetD : (A ++ B ++ C).getD (s + n) [] = B.getLast hBne := by
      rw [hsplit, ← hlen2]
      exact getD_at_append _ _ _ _
    rw [hgetD] at hstep
    have hset : (A ++ B ++ C).set (s + n)
        (B.getLast hBne ++ [r.getLast hrne]) =
        A ++ B.dropLast ++ ((B.getLast hBne ++ [r.getLast hrne]) :: C) := by
      rw [hsplit, ← hlen2, set_at_append]
    rw [hset] at hstep
    rw [foldE_cons_ok _ _ _ _ _ hstep]
    have hsrc2 : (src.set i r.dropLast)[i]? = some r.dropLast := by
      simp [List.getElem?_set_self hilen]
    have hres := ih s (src.set i r.dropLast) A B.dropLast
      ((B.getLast hBne ++ [r.getLast hrne]) :: C) r.dropLast hsrc2 hr1 hA hB1
    rw [hres, List.set_set]
    have hpe : pushEach B r =
        pushEach B.dropLast r.dropLast ++
          [B.getLast hBne ++ [r.getLast hrne]] := by
      conv_lhs => rw [hBdec, ← List.dropLast_append_getLast hrne]
      exact pushEach_append _ _ _ _ (by omega)
    rw [hpe]
    simp

theorem pushEach_length (dst : List (List T)) (r : List T)
    (h : r.length = dst.length) : (pushEach dst r).length = dst.length := by
  unfold pushEach
  rw [List.length_zipWith]
  omega

/-- The ascending outer rotation loop (`rotate_left`): processes source
rows `s, s+1, ...`, each reversed and distributed over the destination
rows. -/
theorem foldE_outer_asc (w : Nat) :
    ∀ (n s : Nat) (src dst : List (List T)),
      (∀ k, k < n → ∃ r, src[s + k]? = some r ∧ r.length = w) →
      dst.length = w →
      ∃ src2,
        foldE (fun st i => foldE (rotStep i) st (List.range w)) (src, dst)
          (List.range' s n) =
        .ok (src2, accPush (((src.drop s).take n).map List.reverse) dst) := by
  intro n
  induction n with
  | zero =>
    intro s src dst hsrc hdst
    exact ⟨src, rfl⟩
  | succ n ih =>
    intro s src dst hsrc hdst
    obtain ⟨r0, hr0, hr0w⟩ := hsrc 0 (Nat.succ_pos n)
    rw [Nat.add_zero] at hr0
    rw [List.range'_succ s n 1]
    have hinner := foldE_rotStep_asc s w 0 src [] dst [] r0 hr0 hr0w rfl hdst
    rw [show ([] : List (List T)) ++ dst ++ [] = dst by simp,
      show ([] : List (List T)) ++ pushEach dst r0.reverse ++ [] =
        pushEach dst r0.reverse by simp,
      show List.range' 0 w = List.range w from (List.range_eq_range' w).symm]
      at hinner
    rw [foldE_cons_ok _ _ _ _ _ hinner]
    have hsrc2 : ∀ k, k < n →
        ∃ r, (src.set s [])[s + 1 + k]? = some r ∧ r.length = w := by
      intro k hk
      obtain ⟨r, hr, hrw⟩ := hsrc (k + 1) (by omega)
      refine ⟨r, ?_, hrw⟩
      rw [List.getElem?_set_ne (by omega), show s + 1 + k = s + (k + 1) by omega]
      exact hr
    have hdst2 : (pushEach dst r0.reverse).length = w := by
      rw [pushEach_length dst r0.reverse (by simp [hr0w, hdst])]
      exact hdst
    obtain ⟨src2, hrec⟩ := ih (s + 1) (src.set s []) (pushEach dst r0.reverse)
      hsrc2 hdst2
    refine ⟨src2, ?_⟩
    rw [hrec]
    have hslen : s < src.length := (List.getElem?_eq_some_iff.mp hr0).1
    have hdrop : src.drop s = r0 :: src.drop (s + 1) := by
      rw [List.drop_eq_getElem_cons hslen]
      have h2 : src[s]? = some src[s] := List.getElem?_eq_getElem hslen
      rw [hr0] at h2
      rw [Option.some.inj h2]
    have hset_drop : (src.set s []).drop (s + 1) = src.drop (s + 1) :=
      drop_set_of_lt src s (s + 1) [] (Nat.lt_succ_self s)
    rw [hset_drop, hdrop, List.take_succ_cons]
    rfl

/-- The descending outer rotation loop (`rotate_right`): processes
source rows from the bottom up, each distributed (not reversed) over the
destination rows. -/
theorem foldE_outer_desc (w : Nat) :
    ∀ (n s : Nat) (src dst : List (List T)),
      (∀ k, k < n → ∃ r, src[s + k]? = some r ∧ r.length = w) →
      dst.length = w →
      ∃ src2,
        foldE (fun st i => foldE (rotStep i) st (List.range w).reverse)
          (src, dst) ((List.range' s n).reverse) =
        .ok (src2, accPush (((src.drop s).take n).reverse) dst) := by
  intro n
  induction n with
  | zero =>
    intro s src dst hsrc hdst
    exact ⟨src, rfl⟩
  | succ n ih =>
    intro s src dst hsrc hdst
    obtain ⟨rl, hrl, hrlw⟩ := hsrc n (Nat.lt_succ_self n)
    rw [range_one_concat s n, List.reverse_append,
      show ([s + n] : List Nat).reverse ++ (List.range' s n).reverse =
        (s + n) :: (List.range' s n).reverse from rfl]
    have hinner := foldE_rotStep_desc (s + n) w 0 src [] dst [] rl hrl hrlw
      rfl hdst
    rw [show ([] : List (List T)) ++ dst ++ [] = dst by simp,
      show ([] : List (List T)) ++ pushEach dst rl ++ [] =
        pushEach dst rl by simp,
      show List.range' 0 w = List.range w from (List.range_eq_range' w).symm]
      at hinner
    rw [foldE_cons_ok _ _ _ _ _ hinner]
    have hsrc2 : ∀ k, k < n →
        ∃ r, (src.set (s + n) [])[s + k]? = some r ∧ r.length = w := by
      intro k hk
      obtain ⟨r, hr, hrw⟩ := hsrc k (by omega)
      exact ⟨r, by rw [List.getElem?_set_ne (by omega)]; exact hr, hrw⟩
    have hdst2 : (pushEach dst rl).length = w := by
      rw [pushEach_length dst rl (by simp [hrlw, hdst])]
      exact hdst
    obtain ⟨src2, hrec⟩ := ih s (src.set (s + n) []) (pushEach dst rl)
      hsrc2 hdst2
    refine ⟨src2, ?_⟩
    rw [hrec]
    have hsd : ((src.set (s + n) []).drop s).take n = (src.drop s).take n :=
      take_drop_set_ne src s n (s + n) [] (fun j hj => by omega)
    rw [hsd]
    have htake : (src.drop s).take (n + 1) = (src.drop s).take n ++ [rl] := by
      rw [List.take_succ, List.getElem?_drop, hrl]
      rfl
    rw [htake, List.reverse_append, List.reverse_singleton,
      List.singleton_append]
    rfl

theorem accPush_length (w : Nat) :
    ∀ (rs : List (List T)) (dst : List (List T)),
      (∀ r ∈ rs, r.length = w) → dst.length = w →
      (accPush rs dst).length = w := by
  intro rs
  induction rs with
  | nil => intro dst _ hdst; exact hdst
  | cons r rs ih =>
    intro dst hall hdst
    show (accPush rs (pushEach dst r)).length = w
    refine ih (pushEach dst r) (fun a ha => hall a (by simp [ha])) ?_
    rw [pushEach_length dst r (by rw [hall r (by simp), hdst])]
    exact hdst

theorem accPush_getElem? (w : Nat) :
    ∀ (rs : List (List T)) (dst : List (List T)) (j : Nat),
      (∀ r ∈ rs, r.length = w) → dst.length = w → j < w →
      ∃ d, dst[j]? = some d ∧
        (accPush rs dst)[j]? = some (d ++ rs.filterMap fun r => r[j]?) := by
  intro rs
  induction rs with
  | nil =>
    intro dst j _ hdst hj
    have hjl : j < dst.length := by omega
    exact ⟨dst[j], List.getElem?_eq_getElem hjl, by
      simpa [accPush] using List.getElem?_eq_getElem hjl⟩
  | cons r rs ih =>
    intro dst j hall hdst hj
    have hrw : r.length = w := hall r (by simp)
    have hjd : j < dst.length := by omega
    have hjr : j < r.length := by omega
    have hdst' : (pushEach dst r).length = w := by
      rw [pushEach_length dst r (by omega)]
      exact hdst
    obtain ⟨d2, hd2, hacc⟩ := ih (pushEach dst r) j
      (fun a ha => hall a (by simp [ha])) hdst' hj
    have hz : (pushEach dst r)[j]? = some (dst[j] ++ [r[j]]) :=
      zipWith_getElem?_some _ dst r j dst[j] r[j]
        (List.getElem?_eq_getElem hjd) (List.getElem?_eq_getElem hjr)
    rw [hz] at hd2
    have hd2' : d2 = dst[j] ++ [r[j]] := (Option.some.inj hd2).symm
    refine ⟨dst[j], List.getElem?_eq_getElem hjd, ?_⟩
    show (accPush rs (pushEach dst r))[j]? = _
    rw [hacc, hd2']
    rw [List.filterMap_cons]
    rw [List.getElem?_eq_getElem hjr]
    simp

/-- The destination rows built by `rotate_left`. -/
def rlRows (g : Grid T) : List (List T) :=
  accPush ((g.rows.take g.size.height).map List.reverse)
    (List.replicate g.size.width [])

/-- The destination rows built by `rotate_right`. -/
def rrRows (g : Grid T) : List (List T) :=
  accPush ((g.rows.take g.size.height).reverse)
    (List.replicate g.size.width [])

theorem Grid.WF.active_rows {g : Grid T} (hw : g.WF) :
    ∀ r ∈ g.rows.take g.size.height, r.length = g.size.width := by
  intro r hr
  obtain ⟨k, hk, hget⟩ := List.getElem_of_mem hr
  have hget? : (g.rows.take g.size.height)[k]? = some r := by
    rw [List.getElem?_eq_getElem hk, hget]
  rw [List.getElem?_take] at hget?
  by_cases hkh : k < g.size.height
  · rw [if_pos hkh] at hget?
    have := hw.row_length hget?
    rwa [if_pos hkh] at this
  · rw [if_neg hkh] at hget?
    exact Option.noConfusion hget?

theorem Grid.rotate_left_eq {g : Grid T} (hw : g.WF) :
    g.rotate_left = .ok (Grid.mk ⟨g.size.height, g.size.width⟩ (rlRows g)
      g.size.height) := by
  have hsrc : ∀ k, k < g.size.height →
      ∃ r, g.rows[0 + k]? = some r ∧ r.length = g.size.width := by
    intro k hk
    have hkl : k < g.rows.length := Nat.lt_of_lt_of_le hk hw.2.1
    refine ⟨g.rows[k], by simpa using List.getElem?_eq_getElem hkl, ?_⟩
    have := hw.row_length (List.getElem?_eq_getElem hkl)
    rwa [if_pos hk] at this
  obtain ⟨src2, hrec⟩ := foldE_outer_asc g.size.width g.size.height 0 g.rows
    (List.replicate g.size.width []) hsrc (by simp)
  rw [show List.range' 0 g.size.height = List.range g.size.height from
    (List.range_eq_range' _).symm, List.drop_zero] at hrec
  unfold Grid.rotate_left
  rw [hrec]
  rfl

theorem Grid.rotate_right_eq {g : Grid T} (hw : g.WF) :
    g.rotate_right = .ok (Grid.mk ⟨g.size.height, g.size.width⟩ (rrRows g)
      g.size.height) := by
  have hsrc : ∀ k, k < g.size.height →
      ∃ r, g.rows[0 + k]? = some r ∧ r.length = g.size.width := by
    intro k hk
    have hkl : k < g.rows.length := Nat.lt_of_lt_of_le hk hw.2.1
    refine ⟨g.rows[k], by simpa using List.getElem?_eq_getElem hkl, ?_⟩
    have := hw.row_length (List.getElem?_eq_getElem hkl)
    rwa [if_pos hk] at this
  obtain ⟨src2, hrec⟩ := foldE_outer_desc g.size.width g.size.height 0 g.rows
    (List.replicate g.size.width []) hsrc (by simp)
  rw [show List.range' 0 g.size.height = List.range g.size.height from
    (List.range_eq_range' _).symm, List.drop_zero] at hrec
  unfold Grid.rotate_right
  rw [hrec]
  rfl

theorem rlRows_lookup {g : Grid T} (hw : g.WF) (x y : Nat)
    (hx : x < g.size.height) (hy : y < g.size.width) :
    rowsLookup (rlRows g) ⟨x, y⟩ = g.lookup ⟨g.size.width - 1 - y, x⟩ := by
  have hall : ∀ r ∈ (g.rows.take g.size.height).map List.reverse,
      r.length = g.size.width := by
    intro r hr
    obtain ⟨r0, hr0mem, hr0⟩ := List.mem_map.mp hr
    rw [← hr0, List.length_reverse]
    exact hw.active_rows r0 hr0mem
  obtain ⟨d, hd, hrow⟩ := accPush_getElem? g.size.width
    ((g.rows.take g.size.height).map List.reverse)
    (List.replicate g.size.width []) y hall (by simp) hy
  have hdnil : d = [] := by
    rw [List.getElem?_replicate, if_pos hy] at hd
    exact (Option.some.inj hd).symm
  subst hdnil
  show (rlRows g)[y]?.bind (fun row => row[x]?) = _
  rw [show (rlRows g)[y]? = (accPush ((g.rows.take g.size.height).map
    List.reverse) (List.replicate g.size.width []))[y]? from rfl, hrow,
    List.nil_append]
  simp only [Option.some_bind]
  rw [filterMap_getElem?_bind _ _ (by
    intro r hr
    rw [List.getElem?_eq_getElem (by rw [hall r hr]; exact hy)]
    rfl) x]
  rw [List.getElem?_map, List.getElem?_take, if_pos hx]
  show _ = g.rows[x]?.bind fun r => r[g.size.width - 1 - y]?
  cases hrx : g.rows[x]? with
  | none => rfl
  | some r =>
    have hrlen : r.length = g.size.width := by
      have := hw.row_length hrx
      rwa [if_pos hx] at this
    simp only [Option.map_some', Option.some_bind]
    rw [List.getElem?_reverse (by omega), hrlen]

theorem rrRows_lookup {g : Grid T} (hw : g.WF) (x y : Nat)
    (hx : x < g.size.height) (hy : y < g.size.width) :
    rowsLookup (rrRows g) ⟨x, y⟩ = g.lookup ⟨y, g.size.height - 1 - x⟩ := by
  have hall : ∀ r ∈ (g.rows.take g.size.height).reverse,
      r.length = g.size.width := by
    intro r hr
    exact hw.active_rows r (List.mem_reverse.mp hr)
  obtain ⟨d, hd, hrow⟩ := accPush_getElem? g.size.width
    ((g.rows.take g.size.height).reverse)
    (List.replicate g.size.width []) y hall (by simp) hy
  have hdnil : d = [] := by
    rw [List.getElem?_replicate, if_pos hy] at hd
    exact (Option.some.inj hd).symm
  subst hdnil
  have htlen : (g.rows.take g.size.height).length = g.size.height := by
    rw [List.length_take]
    exact Nat.min_eq_left hw.2.1
  show (rrRows g)[y]?.bind (fun row => row[x]?) = _
  rw [show (rrRows g)[y]? = (accPush ((g.rows.take g.size.height).reverse)
    (List.replicate g.size.width []))[y]? from rfl, hrow, List.nil_append]
  simp only [Option.some_bind]
  rw [filterMap_getElem?_bind _ _ (by
    intro r hr
    rw [List.getElem?_eq_getElem (by rw [hall r hr]; exact hy)]
    rfl) x]
  rw [List.getElem?_reverse (by omega), htlen, List.getElem?_take,
    if_pos (by omega)]
  rfl

theorem rlRows_wf {g : Grid T} (hw : g.WF) :
    (Grid.mk ⟨g.size.height, g.size.width⟩ (rlRows g) g.size.height).WF := by
  have hall : ∀ r ∈ (g.rows.take g.size.height).map List.reverse,
      r.length = g.size.width := by
    intro r hr
    obtain ⟨r0, hr0mem, hr0⟩ := List.mem_map.mp hr
    rw [← hr0, List.length_reverse]
    exact hw.active_rows r0 hr0mem
  have hlen : (rlRows g).length = g.size.width :=
    accPush_length g.size.width _ _ hall (by simp)
  refine ⟨Nat.le_refl _, by rw [show (Grid.mk ⟨g.size.height, g.size.width⟩
    (rlRows g) g.size.height).rows = rlRows g from rfl, hlen], ?_⟩
  intro i hi
  rw [show (Grid.mk ⟨g.size.height, g.size.width⟩ (rlRows g)
    g.size.height).rows = rlRows g from rfl] at hi ⊢
  rw [hlen] at hi
  rw [if_pos (by exact hi)]
  obtain ⟨d, hd, hrow⟩ := accPush_getElem? g.size.width
    ((g.rows.take g.size.height).map List.reverse)
    (List.replicate g.size.width []) i hall (by simp) hi
  have hdnil : d = [] := by
    rw [List.getElem?_replicate, if_pos hi] at hd
    exact (Option.some.inj hd).symm
  subst hdnil
  rw [List.getD_eq_getElem?_getD,
    show (rlRows g)[i]? = (accPush ((g.rows.take g.size.height).map
      List.reverse) (List.replicate g.size.width []))[i]? from rfl, hrow]
  simp only [List.nil_append, Option.getD_some]
  rw [filterMap_length_of_isSome _ _ (by
    intro r hr
    rw [List.getElem?_eq_getElem (by rw [hall r hr]; exact hi)]
    rfl)]
  rw [List.length_map, List.length_take]
  exact Nat.min_eq_left hw.2.1

theorem rrRows_wf {g : Grid T} (hw : g.WF) :
    (Grid.mk ⟨g.size.height, g.size.width⟩ (rrRows g) g.size.height).WF := by
  have hall : ∀ r ∈ (g.rows.take g.size.height).reverse,
      r.length = g.size.width := by
    intro r hr
    exact hw.active_rows r (List.mem_reverse.mp hr)
  have hlen : (rrRows g).length = g.size.width :=
    accPush_length g.size.width _ _ hall (by simp)
  refine ⟨Nat.le_refl _, by rw [show (Grid.mk ⟨g.size.height, g.size.width⟩
    (rrRows g) g.size.height).rows = rrRows g from rfl, hlen], ?_⟩
  intro i hi
  rw [show (Grid.mk ⟨g.size.height, g.size.width⟩ (rrRows g)
    g.size.height).rows = rrRows g from rfl] at hi ⊢
  rw [hlen] at hi
  rw [if_pos (by exact hi)]
  obtain ⟨d, hd, hrow⟩ := accPush_getElem? g.size.width
    ((g.rows.take g.size.height).reverse)
    (List.replicate g.size.width []) i hall (by simp) hi
  have hdnil : d = [] := by
    rw [List.getElem?_replicate, if_pos hi] at hd
    exact (Option.some.inj hd).symm
  subst hdnil
  rw [List.getD_eq_getElem?_getD,
    show (rrRows g)[i]? = (accPush ((g.rows.take g.size.height).reverse)
      (List.replicate g.size.width []))[i]? from rfl, hrow]
  simp only [List.nil_append, Option.getD_some]
  rw [filterMap_length_of_isSome _ _ (by
    intro r hr
    rw [List.getElem?_eq_getElem (by rw [hall r hr]; exact hi)]
    rfl)]
  rw [List.length_reverse, List.length_take]
  exact Nat.min_eq_left hw.2.1

/-- Claim C4: on any well-formed grid, `rotate_left` followed by
`rotate_right` (and `rotate_right` followed by `rotate_left`) succeeds
and restores the original size and the original element at every
in-bounds coordinate; nothing is claimed about the capacity (which the
code indeed swaps to `(height, width)` and back). -/
theorem claim4_rotate_round_trip {T : Type} (g : Grid T) (hw : g.WF) :
    (∃ g1 g2, g.rotate_left = .ok g1 ∧ g1.rotate_right = .ok g2 ∧
      g2.size = g.size ∧ ∀ c, g.inBounds c → g2.value c = g.value c) ∧
    (∃ g1 g2, g.rotate_right = .ok g1 ∧ g1.rotate_left = .ok g2 ∧
      g2.size = g.size ∧ ∀ c, g.inBounds c → g2.value c = g.value c) := by
  constructor
  · refine ⟨Grid.mk ⟨g.size.height, g.size.width⟩ (rlRows g) g.size.height,
      _, Grid.rotate_left_eq hw, Grid.rotate_right_eq (rlRows_wf hw),
      rfl, ?_⟩
    intro c hc
    have h1 : rowsLookup
        (rrRows (Grid.mk ⟨g.size.height, g.size.width⟩ (rlRows g)
          g.size.height)) ⟨c.x, c.y⟩ =
        (Grid.mk ⟨g.size.height, g.size.width⟩ (rlRows g) g.size.height :
          Grid T).lookup ⟨c.y, g.size.width - 1 - c.x⟩ :=
      rrRows_lookup (rlRows_wf hw) c.x c.y hc.1 hc.2
    have h2 : (Grid.mk ⟨g.size.height, g.size.width⟩ (rlRows g)
        g.size.height : Grid T).lookup ⟨c.y, g.size.width - 1 - c.x⟩ =
        g.lookup ⟨g.size.width - 1 - (g.size.width - 1 - c.x), c.y⟩ :=
      rlRows_lookup hw c.y (g.size.width - 1 - c.x) hc.2 (by
        have := hc.1; omega)
    have h3 : g.size.width - 1 - (g.size.width - 1 - c.x) = c.x := by
      have := hc.1; omega
    refine @Grid.value_congr T g _ c rfl ?_
    have h4 := h1.trans h2
    rw [h3] at h4
    exact h4
  · refine ⟨Grid.mk ⟨g.size.height, g.size.width⟩ (rrRows g) g.size.height,
      _, Grid.rotate_right_eq hw, Grid.rotate_left_eq (rrRows_wf hw),
      rfl, ?_⟩
    intro c hc
    have h1 : rowsLookup
        (rlRows (Grid.mk ⟨g.size.height, g.size.width⟩ (rrRows g)
          g.size.height)) ⟨c.x, c.y⟩ =
        (Grid.mk ⟨g.size.height, g.size.width⟩ (rrRows g) g.size.height :
          Grid T).lookup ⟨g.size.height - 1 - c.y, c.x⟩ :=
      rlRows_lookup (rrRows_wf hw) c.x c.y hc.1 hc.2
    have h2 : (Grid.mk ⟨g.size.height, g.size.width⟩ (rrRows g)
        g.size.height : Grid T).lookup ⟨g.size.height - 1 - c.y, c.x⟩ =
        g.lookup ⟨c.x, g.size.height - 1 - (g.size.height - 1 - c.y)⟩ :=
      rrRows_lookup hw (g.size.height - 1 - c.y) c.x (by
        have := hc.2; omega) hc.1
    have h3 : g.size.height - 1 - (g.size.height - 1 - c.y) = c.y := by
      have := hc.2; omega
    refine @Grid.value_congr T g _ c rfl ?_
    have h4 := h1.trans h2
    rw [h3] at h4
    exact h4

/-- Witness for C4 at the concrete grid `[[1, 2], [3, 4]]`. -/
theorem claim4_witness :
    (Grid.mk ⟨2, 2⟩ [[1, 2], [3, 4]] 2 : Grid Nat).WF ∧
    ((∃ g1 g2, (Grid.mk ⟨2, 2⟩ [[1, 2], [3, 4]] 2 : Grid Nat).rotate_left = .ok g1 ∧
        g1.rotate_right = .ok g2 ∧
        g2.size = (Grid.mk ⟨2, 2⟩ [[1, 2], [3, 4]] 2 : Grid Nat).size ∧
        ∀ c, (Grid.mk ⟨2, 2⟩ [[1, 2], [3, 4]] 2 : Grid Nat).inBounds c →
          g2.value c = (Grid.mk ⟨2, 2⟩ [[1, 2], [3, 4]] 2 : Grid Nat).value c) ∧
      (∃ g1 g2, (Grid.mk ⟨2, 2⟩ [[1, 2], [3, 4]] 2 : Grid Nat).rotate_right = .ok g1 ∧
        g1.rotate_left = .ok g2 ∧
        g2.size = (Grid.mk ⟨2, 2⟩ [[1, 2], [3, 4]] 2 : Grid Nat).size ∧
        ∀ c, (Grid.mk ⟨2, 2⟩ [[1, 2], [3, 4]] 2 : Grid Nat).inBounds c →
          g2.value c = (Grid.mk ⟨2, 2⟩ [[1, 2], [3, 4]] 2 : Grid Nat).value c)) :=
  ⟨by decide, claim4_rotate_round_trip (Grid.mk ⟨2, 2⟩ [[1, 2], [3, 4]] 2) (by decide)⟩

/-! The remaining grid operations, needed for the reachability
invariants (claims C9 and C10). -/

/-- Mirrors `Grid::zero`: equivalent to `new()`. -/
def Grid.zero : Grid T :=
  Grid.new

/-- `Vec::resize` on a row-buffer: truncate, or extend with clones of
`value`. -/
def listResize (l : List T) (n : Nat) (value : T) : List T :=
  l.take n ++ List.replicate (n - l.length) value

/-- The two per-row loops of `Grid::resize`: the first `height` rows are
resized to `width`, every remaining row-buffer is truncated to length 0. -/
def resizeRows (w : Nat) (value : T) : Nat → List (List T) → List (List T)
  | _, [] => []
  | 0, _ :: rs => [] :: resizeRows w value 0 rs
  | h + 1, r :: rs => listResize r w value :: resizeRows w value h rs

/-- Mirrors `Grid::resize`: `row_capacity` grows to at least the new
width; missing row-buffers are appended (`resize_with`, each new row
filled with `size.width` clones); the first `size.height` rows are
resized to `size.width`; rows beyond the new height are truncated to
length 0 but retained. -/
def Grid.resize (g : Grid T) (size : Size) (value : T) : Grid T :=
  let row_capacity :=
    if g.row_capacity < size.width then size.width else g.row_capacity
  let rows1 :=
    if g.rows.length < size.height then
      g.rows ++ List.replicate (size.height - g.rows.length)
        (List.replicate size.width value)
    else g.rows
  Grid.mk size (resizeRows size.width value size.height rows1) row_capacity

/-- Apply a fallible row transformation to each of the first `n`
row-buffers (the `for i in 0..n { ... self.rows[i] ... }` loops);
indexing past the buffer list panics. -/
def mapFirstM (f : List T → Except GridError (List T)) :
    Nat → List (List T) → Except GridError (List (List T))
  | 0, rows => .ok rows
  | _ + 1, [] => .error .Panic
  | n + 1, r :: rs =>
    match f r with
    | .error e => .error e
    | .ok r2 =>
      match mapFirstM f n rs with
      | .error e => .error e
      | .ok rs2 => .ok (r2 :: rs2)

/-- Mirrors `Grid::fill`: overwrite every element of the first
`size.height` rows with a clone of `value`. -/
def Grid.fill (g : Grid T) (value : T) : Except GridError (Grid T) :=
  match mapFirstM (fun r => .ok (r.map fun _ => value)) g.size.height g.rows with
  | .ok rows2 => .ok (Grid.mk g.size rows2 g.row_capacity)
  | .error e => .error e

/-- Mirrors `Grid::clear`: every row-buffer is cleared and the size is
set to `(0, 0)`; the capacity is untouched. -/
def Grid.clear (g : Grid T) : Grid T :=
  Grid.mk ⟨0, 0⟩ (g.rows.map fun _ => []) g.row_capacity

/-- Mirrors `Grid::capacity`: `(row_capacity, rows.len())`. -/
def Grid.capacity (g : Grid T) : Size :=
  ⟨g.row_capacity, g.rows.length⟩

/-- Mirrors `Grid::reserve`: every live row reserves `additional.width`
more slots (observable only through `row_capacity`), then the row-buffer
list is extended with fresh empty row-buffers up to its new capacity.
`Vec::capacity()` after `reserve_exact(additional.height)` is modelled
as its guaranteed minimum, `rows.len() + additional.height`. -/
def Grid.reserve (g : Grid T) (additional : Size) : Grid T :=
  Grid.mk g.size (g.rows ++ List.replicate additional.height [])
    (g.row_capacity + additional.width)

/-- Mirrors `Grid::swap_row`: two `assert!`s against `size.height`, then
`self.rows.swap(a, b)` (whose own bounds check is the `Panic` branch). -/
def Grid.swap_row (g : Grid T) (a b : Nat) : Except GridError (Grid T) :=
  if a < g.size.height then
    if b < g.size.height then
      match g.rows[a]?, g.rows[b]? with
      | some ra, some rb => .ok (Grid.mk g.size ((g.rows.set a rb).set b ra)
          g.row_capacity)
      | _, _ => .error .Panic
    else .error .OutOfBounds
  else .error .OutOfBounds

/-- `Vec::swap(a, b)` inside one row-buffer (used by `swap_column`). -/
def swapInRow (a b : Nat) (r : List T) : Except GridError (List T) :=
  match r[a]?, r[b]? with
  | some va, some vb => .ok ((r.set a vb).set b va)
  | _, _ => .error .Panic

/-- Mirrors `Grid::swap_column`: two `assert!`s against `size.width`,
then `self.rows[i].swap(a, b)` for every live row — one element at a
time, because columns are not stored contiguously. -/
def Grid.swap_column (g : Grid T) (a b : Nat) : Except GridError (Grid T) :=
  if a < g.size.width then
    if b < g.size.width then
      match mapFirstM (swapInRow a b) g.size.height g.rows with
      | .ok rows2 => .ok (Grid.mk g.size rows2 g.row_capacity)
      | .error e => .error e
    else .error .OutOfBounds
  else .error .OutOfBounds

/-- The loop of `Grid::insert_column`: for each of the first `n` rows,
`rows[i].insert(index, column.remove(0))`. -/
def insertColRows (index : Nat) :
    Nat → List (List T) → List T → Except GridError (List (List T))
  | 0, rows, _ => .ok rows
  | _ + 1, [], _ => .error .Panic
  | _ + 1, _ :: _, [] => .error .Panic
  | n + 1, r :: rs, x :: xs =>
    if index ≤ r.length then
      match insertColRows index n rs xs with
      | .ok rs2 => .ok (listInsert r index x :: rs2)
      | .error e => .error e
    else .error .Panic

/-- Mirrors `Grid::insert_column`: `assert!(!(index > size.width))`
(`OutOfBounds`), `assert_eq!(column.len(), size.height)` (`ShapeError`),
then `row_capacity` is bumped by one if it would be exceeded and the
column elements are spliced into the live rows; `size.width` is
incremented. -/
def Grid.insert_column (g : Grid T) (index : Nat) (column : List T) :
    Except GridError (Grid T) :=
  if index > g.size.width then .error .OutOfBounds
  else if column.length ≠ g.size.height then .error .ShapeError
  else
    let row_capacity :=
      if g.row_capacity < g.size.width + 1 then g.row_capacity + 1
      else g.row_capacity
    match insertColRows index g.size.height g.rows column with
    | .ok rows2 => .ok (Grid.mk ⟨g.size.width + 1, g.size.height⟩ rows2
        row_capacity)
    | .error e => .error e

/-- Mirrors `Grid::remove_column`: `assert!(index < size.width)`
(`OutOfBounds`), then `rows[i].remove(index)` for every live row;
`size.width` is decremented. -/
def Grid.remove_column (g : Grid T) (index : Nat) :
    Except GridError (Grid T) :=
  if index < g.size.width then
    match mapFirstM (fun r =>
        if index < r.length then .ok (listRemove r index)
        else .error .Panic) g.size.height g.rows with
    | .ok rows2 => .ok (Grid.mk ⟨g.size.width - 1, g.size.height⟩ rows2
        g.row_capacity)
    | .error e => .error e
  else .error .OutOfBounds

/-- `slice::rotate_left(n)` (`n ≤ len` or it panics). -/
def rotL (l : List T) (n : Nat) : List T :=
  l.drop n ++ l.take n

/-- `slice::rotate_right(n)` (`n ≤ len` or it panics). -/
def rotR (l : List T) (n : Nat) : List T :=
  l.drop (l.length - n) ++ l.take (l.length - n)

/-- Mirrors `RowMut::reverse` (through `Grid::row_mut` /
`Grid::row_slice`, which assert `index < size.height`): reverse the
whole row-buffer in place. -/
def Grid.row_reverse (g : Grid T) (index : Nat) : Except GridError (Grid T) :=
  if index < g.size.height then
    match g.rows[index]? with
    | some r => .ok (Grid.mk g.size (g.rows.set index r.reverse)
        g.row_capacity)
    | none => .error .Panic
  else .error .OutOfBounds

/-- Mirrors `RowMut::rotate_left` (delegating to `slice::rotate_left`,
which panics when the count exceeds the row length). -/
def Grid.row_rotate_left (g : Grid T) (index number : Nat) :
    Except GridError (Grid T) :=
  if index < g.size.height then
    match g.rows[index]? with
    | some r =>
      if number ≤ r.length then
        .ok (Grid.mk g.size (g.rows.set index (rotL r number)) g.row_capacity)
      else .error .Panic
    | none => .error .Panic
  else .error .OutOfBounds

/-- Mirrors `RowMut::rotate_right` (delegating to `slice::rotate_right`). -/
def Grid.row_rotate_right (g : Grid T) (index number : Nat) :
    Except GridError (Grid T) :=
  if index < g.size.height then
    match g.rows[index]? with
    | some r =>
      if number ≤ r.length then
        .ok (Grid.mk g.size (g.rows.set index (rotR r number)) g.row_capacity)
      else .error .Panic
    | none => .error .Panic
  else .error .OutOfBounds

/-- Mirrors `Grid::flip_horizontally`: reverse each row in place via
`row_mut(index).reverse()`. -/
def Grid.flip_horizontally (g : Grid T) : Except GridError (Grid T) :=
  foldE (fun g2 index => g2.row_reverse index) g (List.range g.size.height)

/-- Mirrors `Grid::flip_vertically`: reverse each column in place via
`column_mut(index).reverse()`. -/
def Grid.flip_vertically (g : Grid T) : Except GridError (Grid T) :=
  foldE (fun g2 index => g2.col_reverse index) g (List.range g.size.width)

/-- Mirrors `Grid::from_columns`: `from_rows` on the column vectors,
then `flip_horizontally`, then `rotate_left`. -/
def Grid.from_columns (columns : List (List T)) : Except GridError (Grid T) :=
  match Grid.from_rows columns with
  | .error e => .error e
  | .ok grid =>
    match grid.flip_horizontally with
    | .error e => .error e
    | .ok g2 => g2.rotate_left

/-! Preservation of the well-formedness invariant by every public
operation (claims C9 and C10). -/

theorem wf_mk (size2 : Size) (rows2 : List (List T)) (rc2 : Nat)
    (h1 : size2.width ≤ rc2) (h2 : size2.height ≤ rows2.length)
    (h3 : ∀ i r2, rows2[i]? = some r2 →
      r2.length = if i < size2.height then size2.width else 0) :
    (Grid.mk size2 rows2 rc2).WF := by
  refine ⟨h1, h2, ?_⟩
  intro i hi
  show (rows2.getD i []).length = _
  rw [List.getD_eq_getElem?_getD, List.getElem?_eq_getElem hi,
    Option.getD_some]
  exact h3 i _ (List.getElem?_eq_getElem hi)

theorem listResize_length (l : List T) (n : Nat) (v : T) :
    (listResize l n v).length = n := by
  unfold listResize
  simp
  omega

theorem listRemove_length (l : List T) (i : Nat) (h : i < l.length) :
    (listRemove l i).length = l.length - 1 := by
  unfold listRemove
  simp
  omega

theorem resizeRows_length (w : Nat) (v : T) :
    ∀ (h : Nat) (l : List (List T)), (resizeRows w v h l).length = l.length := by
  intro h l
  induction l generalizing h with
  | nil => cases h <;> rfl
  | cons r rs ih =>
    cases h with
    | zero => simpa [resizeRows] using ih 0
    | succ h2 => simpa [resizeRows] using ih h2

theorem resizeRows_getElem? (w : Nat) (v : T) :
    ∀ (h : Nat) (l : List (List T)) (i : Nat),
      (resizeRows w v h l)[i]? =
        l[i]?.map fun r => if i < h then listResize r w v else [] := by
  intro h l
  induction l generalizing h with
  | nil => intro i; cases h <;> simp [resizeRows]
  | cons r rs ih =>
    intro i
    cases h with
    | zero =>
      cases i with
      | zero => simp [resizeRows]
      | succ m => simpa [resizeRows] using ih 0 m
    | succ h2 =>
      cases i with
      | zero => simp [resizeRows]
      | succ m =>
        rw [show resizeRows w v (h2 + 1) (r :: rs) =
          listResize r w v :: resizeRows w v h2 rs from rfl]
        simp only [List.getElem?_cons_succ]
        rw [ih h2 m]
        simp [Nat.succ_lt_succ_iff]

theorem Grid.resize_wf (g : Grid T) (hw : g.WF) (size2 : Size) (v : T) :
    (g.resize size2 v).WF := by
  unfold Grid.resize
  apply wf_mk
  · show size2.width ≤ if g.row_capacity < size2.width then size2.width
      else g.row_capacity
    split_ifs <;> omega
  · rw [resizeRows_length]
    split_ifs with hlen
    · simp
      omega
    · omega
  · intro i r2 hr2
    rw [resizeRows_getElem?] at hr2
    cases hrows1 : (if g.rows.length < size2.height then
        g.rows ++ List.replicate (size2.height - g.rows.length)
          (List.replicate size2.width v)
      else g.rows)[i]? with
    | none => rw [hrows1] at hr2; simp at hr2
    | some r =>
      rw [hrows1] at hr2
      simp only [Option.map_some'] at hr2
      have hr2' : r2 = if i < size2.height then listResize r size2.width v
          else [] := (Option.some.inj hr2).symm
      subst hr2'
      by_cases hih : i < size2.height
      · rw [if_pos hih, if_pos hih, listResize_length]
      · rw [if_neg hih, if_neg hih]
        rfl

theorem mapFirstM_ok {f : List T → Except GridError (List T)} :
    ∀ (n : Nat) (l l2 : List (List T)), mapFirstM f n l = .ok l2 →
      l2.length = l.length ∧
      (∀ i, i < n → ∃ r r2, l[i]? = some r ∧ f r = .ok r2 ∧ l2[i]? = some r2) ∧
      (∀ i, n ≤ i → l2[i]? = l[i]?) := by
  intro n
  induction n with
  | zero =>
    intro l l2 h
    have hl := Except.ok.inj h
    subst hl
    exact ⟨rfl, fun i hi => absurd hi (by omega), fun i _ => rfl⟩
  | succ n ih =>
    intro l l2 h
    cases l with
    | nil => exact absurd h (by simp [mapFirstM])
    | cons r rs =>
      unfold mapFirstM at h
      cases hf1 : f r with
      | error e => rw [hf1] at h; simp at h
      | ok r2 =>
        rw [hf1] at h
        cases hm : mapFirstM f n rs with
        | error e => rw [hm] at h; simp at h
        | ok rs2 =>
          rw [hm] at h
          simp only [Except.ok.injEq] at h
          subst h
          obtain ⟨hlen, hlt, hge⟩ := ih rs rs2 hm
          refine ⟨by simp [hlen], ?_, ?_⟩
          · intro i hi
            cases i with
            | zero =>
              exact ⟨r, r2, List.getElem?_cons_zero, hf1, List.getElem?_cons_zero⟩
            | succ m =>
              obtain ⟨a, a2, ha1, ha2, ha3⟩ := hlt m (by omega)
              exact ⟨a, a2, by simpa using ha1, ha2, by simpa using ha3⟩
          · intro i hi
            cases i with
            | zero => omega
            | succ m => simpa using hge m (by omega)

theorem Grid.mapFirstM_wf {g : Grid T} (hw : g.WF)
    {f : List T → Except GridError (List T)}
    (hf : ∀ r r2, f r = .ok r2 → r2.length = r.length)
    {rows2 : List (List T)}
    (h : mapFirstM f g.size.height g.rows = .ok rows2) :
    (Grid.mk g.size rows2 g.row_capacity).WF := by
  obtain ⟨hlen, hlt, hge⟩ := mapFirstM_ok g.size.height g.rows rows2 h
  apply wf_mk
  · exact hw.1
  · rw [hlen]; exact hw.2.1
  · intro i r2 hr2
    by_cases hih : i < g.size.height
    · obtain ⟨r, r2', hr, hfr, hr2'⟩ := hlt i hih
      rw [hr2'] at hr2
      have : r2 = r2' := (Option.some.inj hr2).symm
      subst this
      rw [hf r r2 hfr]
      exact hw.row_length hr
    · rw [hge i (by omega)] at hr2
      exact hw.row_length hr2

theorem Grid.fill_ok_wf {g g2 : Grid T} {v : T} (hw : g.WF)
    (h : g.fill v = .ok g2) : g2.WF := by
  unfold Grid.fill at h
  cases hm : mapFirstM (fun r => .ok (r.map fun _ => v)) g.size.height g.rows with
  | error e => rw [hm] at h; simp at h
  | ok rows2 =>
    rw [hm] at h
    simp only [Except.ok.injEq] at h
    subst h
    exact Grid.mapFirstM_wf hw (fun r r2 hr => by
      have := Except.ok.inj hr
      subst this
      simp) hm

theorem Grid.clear_wf (g : Grid T) : g.clear.WF := by
  unfold Grid.clear
  apply wf_mk
  · exact Nat.zero_le _
  · exact Nat.zero_le _
  · intro i r2 hr2
    rw [List.getElem?_map] at hr2
    cases hr : g.rows[i]? with
    | none => rw [hr] at hr2; simp at hr2
    | some r =>
      rw [hr] at hr2
      simp only [Option.map_some'] at hr2
      have : r2 = [] := (Option.some.inj hr2).symm
      subst this
      rfl

theorem Grid.reserve_wf (g : Grid T) (hw : g.WF) (a : Size) :
    (g.reserve a).WF := by
  unfold Grid.reserve
  apply wf_mk
  · have := hw.1; show g.size.width ≤ g.row_capacity + a.width; omega
  · have := hw.2.1
    show g.size.height ≤ (g.rows ++ List.replicate a.height []).length
    simp
    omega
  · intro i r2 hr2
    rw [List.getElem?_append] at hr2
    by_cases hi : i < g.rows.length
    · rw [if_pos hi] at hr2
      exact hw.row_length hr2
    · rw [if_neg hi] at hr2
      rw [List.getElem?_replicate] at hr2
      by_cases hir : i - g.rows.length < a.height
      · rw [if_pos hir] at hr2
        have : r2 = [] := (Option.some.inj hr2).symm
        subst this
        rw [if_neg (by have := hw.2.1; omega)]
        rfl
      · rw [if_neg hir] at hr2
        exact Option.noConfusion hr2

theorem Grid.set_value_ok_wf {g g2 : Grid T} {c : Coordinate} {v : T}
    (hw : g.WF) (h : g.set_value c v = .ok g2) : g2.WF := by
  by_cases hb : g.inBounds c
  · rw [Grid.set_value_eq_ok v hw hb] at h
    have := Except.ok.inj h
    subst this
    exact hw.setCell_pres c v
  · rw [Grid.set_value_oob v hb] at h
    exact Except.noConfusion h

theorem Grid.swap_value_ok_wf {g g2 : Grid T} {a b : Coordinate}
    (hw : g.WF) (h : g.swap_value a b = .ok g2) : g2.WF := by
  by_cases hab : g.inBounds a ∧ g.inBounds b
  · obtain ⟨va, vb, hva, hvb, heq⟩ := Grid.swap_value_wf_ok hw hab.1 hab.2
    rw [heq] at h
    have := Except.ok.inj h
    subst this
    exact Grid.WF.setCell_pres (hw.setCell_pres a vb) b va
  · rw [Grid.swap_value_oob hab] at h
    exact Except.noConfusion h

theorem Grid.swap_row_ok_wf {g g2 : Grid T} {a b : Nat}
    (hw : g.WF) (h : g.swap_row a b = .ok g2) : g2.WF := by
  unfold Grid.swap_row at h
  by_cases ha : a < g.size.height
  · rw [if_pos ha] at h
    by_cases hb : b < g.size.height
    · rw [if_pos hb] at h
      cases hra : g.rows[a]? with
      | none => rw [hra] at h; simp at h
      | some ra =>
        cases hrb : g.rows[b]? with
        | none => rw [hra, hrb] at h; simp at h
        | some rb =>
          rw [hra, hrb] at h
          simp only [Option.getD_some, Except.ok.injEq] at h
          subst h
          apply wf_mk
          · exact hw.1
          · simp only [List.length_set]; exact hw.2.1
          · intro i r2 hr2
            by_cases hib : i = b
            · subst hib
              rw [List.getElem?_set_self (by
                  rw [List.length_set]
                  rw [List.getElem?_eq_some_iff] at hrb
                  exact hrb.1)] at hr2
              have : r2 = ra := (Option.some.inj hr2).symm
              subst this
              have := hw.row_length hra
              rw [if_pos ha] at this
              rw [this, if_pos hb]
            · rw [List.getElem?_set_ne (fun hh => hib hh.symm)] at hr2
              by_cases hia : i = a
              · subst hia
                rw [List.getElem?_set_self (by
                    rw [List.getElem?_eq_some_iff] at hra
                    exact hra.1)] at hr2
                have : r2 = rb := (Option.some.inj hr2).symm
                subst this
                have := hw.row_length hrb
                rw [if_pos hb] at this
                rw [this, if_pos ha]
              · rw [List.getElem?_set_ne (fun hh => hia hh.symm)] at hr2
                exact hw.row_length hr2
    · rw [if_neg hb] at h; exact Except.noConfusion h
  · rw [if_neg ha] at h; exact Except.noConfusion h

theorem Grid.wf_set_row {g : Grid T} (hw : g.WF) {index : Nat} {r r2 : List T}
    (hr : g.rows[index]? = some r) (hlen : r2.length = r.length) :
    (Grid.mk g.size (g.rows.set index r2) g.row_capacity).WF := by
  apply wf_mk
  · exact hw.1
  · simp only [List.length_set]; exact hw.2.1
  · intro i r3 hr3
    by_cases hi : i = index
    · subst hi
      rw [List.getElem?_set_self (by
          rw [List.getElem?_eq_some_iff] at hr
          exact hr.1)] at hr3
      have : r3 = r2 := (Option.some.inj hr3).symm
      subst this
      rw [hlen]
      exact hw.row_length hr
    · rw [List.getElem?_set_ne (fun hh => hi hh.symm)] at hr3
      exact hw.row_length hr3

theorem rotL_length (l : List T) (n : Nat) : (rotL l n).length = l.length := by
  unfold rotL
  simp
  omega

theorem rotR_length (l : List T) (n : Nat) : (rotR l n).length = l.length := by
  unfold rotR
  simp

theorem Grid.row_reverse_ok_wf {g g2 : Grid T} {index : Nat}
    (hw : g.WF) (h : g.row_reverse index = .ok g2) : g2.WF := by
  unfold Grid.row_reverse at h
  by_cases hi : index < g.size.height
  · rw [if_pos hi] at h
    cases hr : g.rows[index]? with
    | none => rw [hr] at h; simp at h
    | some r =>
      rw [hr] at h
      simp only [Option.getD_some, Except.ok.injEq] at h
      subst h
      exact Grid.wf_set_row hw hr (by simp)
  · rw [if_neg hi] at h; exact Except.noConfusion h

theorem Grid.row_rotate_left_ok_wf {g g2 : Grid T} {index n : Nat}
    (hw : g.WF) (h : g.row_rotate_left index n = .ok g2) : g2.WF := by
  unfold Grid.row_rotate_left at h
  by_cases hi : index < g.size.height
  · rw [if_pos hi] at h
    cases hr : g.rows[index]? with
    | none => rw [hr] at h; simp at h
    | some r =>
      rw [hr] at h
      by_cases hn : n ≤ r.length
      · rw [show (match some r with
            | some r =>
              if n ≤ r.length then
                Except.ok (Grid.mk g.size (g.rows.set index (rotL r n))
                  g.row_capacity)
              else Except.error GridError.Panic
            | none => Except.error GridError.Panic) =
            (if n ≤ r.length then
              Except.ok (Grid.mk g.size (g.rows.set index (rotL r n))
                g.row_capacity)
            else Except.error GridError.Panic) from rfl, if_pos hn] at h
        have := Except.ok.inj h
        subst this
        exact Grid.wf_set_row hw hr (rotL_length r n)
      · rw [show (match some r with
            | some r =>
              if n ≤ r.length then
                Except.ok (Grid.mk g.size (g.rows.set index (rotL r n))
                  g.row_capacity)
              else Except.error GridError.Panic
            | none => Except.error GridError.Panic) =
            (if n ≤ r.length then
              Except.ok (Grid.mk g.size (g.rows.set index (rotL r n))
                g.row_capacity)
            else Except.error GridError.Panic) from rfl, if_neg hn] at h
        exact Except.noConfusion h
  · rw [if_neg hi] at h; exact Except.noConfusion h

theorem Grid.row_rotate_right_ok_wf {g g2 : Grid T} {index n : Nat}
    (hw : g.WF) (h : g.row_rotate_right index n = .ok g2) : g2.WF := by
  unfold Grid.row_rotate_right at h
  by_cases hi : index < g.size.height
  · rw [if_pos hi] at h
    cases hr : g.rows[index]? with
    | none => rw [hr] at h; simp at h
    | some r =>
      rw [hr] at h
      by_cases hn : n ≤ r.length
      · rw [show (match some r with
            | some r =>
              if n ≤ r.length then
                Except.ok (Grid.mk g.size (g.rows.set index (rotR r n))
                  g.row_capacity)
              else Except.error GridError.Panic
            | none => Except.error GridError.Panic) =
            (if n ≤ r.length then
              Except.ok (Grid.mk g.size (g.rows.set index (rotR r n))
                g.row_capacity)
            else Except.error GridError.Panic) from rfl, if_pos hn] at h
        have := Except.ok.inj h
        subst this
        exact Grid.wf_set_row hw hr (rotR_length r n)
      · rw [show (match some r with
            | some r =>
              if n ≤ r.length then
                Except.ok (Grid.mk g.size (g.rows.set index (rotR r n))
                  g.row_capacity)
              else Except.error GridError.Panic
            | none => Except.error GridError.Panic) =
            (if n ≤ r.length then
              Except.ok (Grid.mk g.size (g.rows.set index (rotR r n))
                g.row_capacity)
            else Except.error GridError.Panic) from rfl, if_neg hn] at h
        exact Except.noConfusion h
  · rw [if_neg hi] at h; exact Except.noConfusion h

theorem Grid.insert_row_ok_wf {g g2 : Grid T} {index : Nat} {row : List T}
    (hw : g.WF) (h : g.insert_row index row = .ok g2) : g2.WF := by
  unfold Grid.insert_row at h
  by_cases h1 : index > g.size.height
  · rw [if_pos h1] at h; exact Except.noConfusion h
  rw [if_neg h1] at h
  by_cases h2 : row.length ≠ g.size.width
  · rw [if_pos h2] at h; exact Except.noConfusion h
  rw [if_neg h2] at h
  push_neg at h2
  by_cases h3 : g.size.height < g.rows.length
  · rw [if_pos h3] at h
    by_cases h4 : index ≤ g.rows.dropLast.length
    · rw [if_pos h4] at h
      have hg := Except.ok.inj h
      subst hg
      rw [List.length_dropLast] at h4
      apply wf_mk
      · exact hw.1
      · show g.size.height + 1 ≤ (listInsert g.rows.dropLast index row).length
        rw [listInsert_length _ _ _ (by rw [List.length_dropLast]; exact h4),
          List.length_dropLast]
        omega
      · intro i r2 hr2
        show r2.length = if i < g.size.height + 1 then g.size.width else 0
        rw [listInsert_getElem? _ _ _
          (by rw [List.length_dropLast]; exact h4)] at hr2
        by_cases hlt : i < index
        · rw [if_pos hlt] at hr2
          have hr2g : g.rows[i]? = some r2 := by
            rw [List.dropLast_eq_take, List.getElem?_take] at hr2
            by_cases hil : i < g.rows.length - 1
            · rw [if_pos hil] at hr2; exact hr2
            · rw [if_neg hil] at hr2; exact Option.noConfusion hr2
          have := hw.row_length hr2g
          rw [if_pos (by omega)] at this
          rw [this, if_pos (by omega)]
        · rw [if_neg hlt] at hr2
          by_cases heq : i = index
          · rw [if_pos heq] at hr2
            have : r2 = row := (Option.some.inj hr2).symm
            subst this
            rw [h2, if_pos (by omega)]
          · rw [if_neg heq] at hr2
            have hr2g : g.rows[i - 1]? = some r2 := by
              rw [List.dropLast_eq_take, List.getElem?_take] at hr2
              by_cases hil : i - 1 < g.rows.length - 1
              · rw [if_pos hil] at hr2; exact hr2
              · rw [if_neg hil] at hr2; exact Option.noConfusion hr2
            have := hw.row_length hr2g
            by_cases hih : i - 1 < g.size.height
            · rw [if_pos hih] at this
              rw [this, if_pos (by omega)]
            · rw [if_neg hih] at this
              rw [this, if_neg (by omega)]
    · rw [if_neg h4] at h; exact Except.noConfusion h
  · rw [if_neg h3] at h
    by_cases h4 : index ≤ g.rows.length
    · rw [if_pos h4] at h
      have hg := Except.ok.inj h
      subst hg
      have hhl : g.size.height ≤ g.rows.length := hw.2.1
      apply wf_mk
      · exact hw.1
      · show g.size.height + 1 ≤ (listInsert g.rows index row).length
        rw [listInsert_length _ _ _ h4]
        omega
      · intro i r2 hr2
        show r2.length = if i < g.size.height + 1 then g.size.width else 0
        rw [listInsert_getElem? _ _ _ h4] at hr2
        by_cases hlt : i < index
        · rw [if_pos hlt] at hr2
          have := hw.row_length hr2
          rw [if_pos (by omega)] at this
          rw [this, if_pos (by omega)]
        · rw [if_neg hlt] at hr2
          by_cases heq : i = index
          · rw [if_pos heq] at hr2
            have : r2 = row := (Option.some.inj hr2).symm
            subst this
            rw [h2, if_pos (by omega)]
          · rw [if_neg heq] at hr2
            have := hw.row_length hr2
            by_cases hih : i - 1 < g.size.height
            · rw [if_pos hih] at this
              rw [this, if_pos (by omega)]
            · rw [if_neg hih] at this
              rw [this, if_neg (by omega)]
    · rw [if_neg h4] at h; exact Except.noConfusion h

theorem Grid.remove_row_ok_wf {g g2 : Grid T} {index : Nat}
    (hw : g.WF) (h : g.remove_row index = .ok g2) : g2.WF := by
  unfold Grid.remove_row at h
  by_cases h1 : index < g.size.height
  · rw [if_pos h1] at h
    by_cases h2 : index < g.rows.length
    · rw [if_pos h2] at h
      have hg := Except.ok.inj h
      subst hg
      have hrl : (listRemove g.rows index).length = g.rows.length - 1 :=
        listRemove_length g.rows index h2
      apply wf_mk
      · exact hw.1
      · show g.size.height - 1 ≤ (listRemove g.rows index ++ [[]]).length
        rw [List.length_append, hrl]
        have := hw.2.1
        simp
        omega
      · intro i r2 hr2
        show r2.length = if i < g.size.height - 1 then g.size.width else 0
        rw [List.getElem?_append] at hr2
        by_cases hi : i < (listRemove g.rows index).length
        · rw [if_pos hi] at hr2
          rw [listRemove_getElem?] at hr2
          by_cases hlt : i < index
          · rw [if_pos hlt] at hr2
            have := hw.row_length hr2
            rw [if_pos (by omega)] at this
            rw [this, if_pos (by omega)]
          · rw [if_neg hlt] at hr2
            have := hw.row_length hr2
            by_cases hih : i + 1 < g.size.height
            · rw [if_pos hih] at this
              rw [this, if_pos (by omega)]
            · rw [if_neg hih] at this
              rw [this, if_neg (by omega)]
        · rw [if_neg hi] at hr2
          have hr2e : r2 = [] := by
            cases hd : i - (listRemove g.rows index).length with
            | zero => rw [hd] at hr2; simp at hr2; exact hr2
            | succ m => rw [hd] at hr2; simp at hr2
          subst hr2e
          rw [hrl] at hi
          rw [if_neg (by have := hw.2.1; omega)]
          rfl
    · rw [if_neg h2] at h; exact Except.noConfusion h
  · rw [if_neg h1] at h; exact Except.noConfusion h

theorem Grid.swap_column_ok_wf {g g2 : Grid T} {a b : Nat}
    (hw : g.WF) (h : g.swap_column a b = .ok g2) : g2.WF := by
  unfold Grid.swap_column at h
  by_cases ha : a < g.size.width
  · rw [if_pos ha] at h
    by_cases hb2 : b < g.size.width
    · rw [if_pos hb2] at h
      cases hm : mapFirstM (swapInRow a b) g.size.height g.rows with
      | error e => rw [hm] at h; exact Except.noConfusion h
      | ok rows2 =>
        rw [hm] at h
        have hg := Except.ok.inj h
        subst hg
        refine Grid.mapFirstM_wf hw ?_ hm
        intro r r2 hr
        unfold swapInRow at hr
        cases hva : r[a]? with
        | none =>
          cases hvb : r[b]? with
          | none => rw [hva, hvb] at hr; exact Except.noConfusion hr
          | some vb => rw [hva, hvb] at hr; exact Except.noConfusion hr
        | some va =>
          cases hvb : r[b]? with
          | none => rw [hva, hvb] at hr; exact Except.noConfusion hr
          | some vb =>
            rw [hva, hvb] at hr
            have : (r.set a vb).set b va = r2 := Except.ok.inj hr
            subst this
            simp
    · rw [if_neg hb2] at h; exact Except.noConfusion h
  · rw [if_neg ha] at h; exact Except.noConfusion h

theorem insertColRows_ok {index : Nat} :
    ∀ (n : Nat) (rows rows2 : List (List T)) (col : List T),
      insertColRows index n rows col = .ok rows2 →
      rows2.length = rows.length ∧
      ∀ i r2, rows2[i]? = some r2 →
        ∃ r, rows[i]? = some r ∧
          r2.length = if i < n then r.length + 1 else r.length := by
  intro n
  induction n with
  | zero =>
    intro rows rows2 col h
    have := Except.ok.inj h
    subst this
    exact ⟨rfl, fun i r2 hr2 => ⟨r2, hr2, by simp⟩⟩
  | succ n ih =>
    intro rows rows2 col h
    cases rows with
    | nil => exact absurd h (by simp [insertColRows])
    | cons r rs =>
      cases col with
      | nil => exact absurd h (by simp [insertColRows])
      | cons x xs =>
        unfold insertColRows at h
        by_cases hidx : index ≤ r.length
        · rw [if_pos hidx] at h
          cases hm : insertColRows index n rs xs with
          | error e => rw [hm] at h; exact Except.noConfusion h
          | ok rs2 =>
            rw [hm] at h
            have : listInsert r index x :: rs2 = rows2 := Except.ok.inj h
            subst this
            obtain ⟨hlen, hch⟩ := ih rs rs2 xs hm
            refine ⟨by simp [hlen], ?_⟩
            intro i r2 hr2
            cases i with
            | zero =>
              rw [List.getElem?_cons_zero] at hr2
              have : r2 = listInsert r index x := (Option.some.inj hr2).symm
              subst this
              refine ⟨r, List.getElem?_cons_zero, ?_⟩
              rw [listInsert_length r index x hidx]
              simp
            | succ m =>
              rw [List.getElem?_cons_succ] at hr2
              obtain ⟨a, ha1, ha2⟩ := hch m r2 hr2
              refine ⟨a, by simpa using ha1, ?_⟩
              rw [ha2]
              simp [Nat.succ_lt_succ_iff]
        · rw [if_neg hidx] at h; exact Except.noConfusion h

theorem Grid.insert_column_ok_wf {g g2 : Grid T} {index : Nat}
    {col : List T} (hw : g.WF) (h : g.insert_column index col = .ok g2) :
    g2.WF := by
  unfold Grid.insert_column at h
  by_cases h1 : index > g.size.width
  · rw [if_pos h1] at h; exact Except.noConfusion h
  rw [if_neg h1] at h
  by_cases h2 : col.length ≠ g.size.height
  · rw [if_pos h2] at h; exact Except.noConfusion h
  rw [if_neg h2] at h
  cases hm : insertColRows index g.size.height g.rows col with
  | error e => rw [hm] at h; exact Except.noConfusion h
  | ok rows2 =>
    rw [hm] at h
    have hg := Except.ok.inj h
    subst hg
    obtain ⟨hlen, hch⟩ := insertColRows_ok g.size.height g.rows rows2 col hm
    apply wf_mk
    · show g.size.width + 1 ≤ if g.row_capacity < g.size.width + 1
        then g.row_capacity + 1 else g.row_capacity
      have := hw.1
      split_ifs <;> omega
    · show g.size.height ≤ rows2.length
      rw [hlen]
      exact hw.2.1
    · intro i r2 hr2
      show r2.length = if i < g.size.height then g.size.width + 1 else 0
      obtain ⟨r, hr, hlen2⟩ := hch i r2 hr2
      have hrlen := hw.row_length hr
      by_cases hih : i < g.size.height
      · rw [if_pos hih] at hrlen hlen2
        rw [hlen2, hrlen, if_pos hih]
      · rw [if_neg hih] at hrlen
        rw [if_neg hih] at hlen2
        rw [hlen2, hrlen, if_neg hih]

theorem Grid.remove_column_ok_wf {g g2 : Grid T} {index : Nat}
    (hw : g.WF) (h : g.remove_column index = .ok g2) : g2.WF := by
  unfold Grid.remove_column at h
  by_cases hi : index < g.size.width
  · rw [if_pos hi] at h
    cases hm : mapFirstM (fun r =>
        if index < r.length then Except.ok (listRemove r index)
        else Except.error GridError.Panic) g.size.height g.rows with
    | error e => rw [hm] at h; exact Except.noConfusion h
    | ok rows2 =>
      rw [hm] at h
      have hg := Except.ok.inj h
      subst hg
      obtain ⟨hlen, hlt, hge⟩ := mapFirstM_ok g.size.height g.rows rows2 hm
      apply wf_mk
      · show g.size.width - 1 ≤ g.row_capacity
        have := hw.1
        omega
      · show g.size.height ≤ rows2.length
        rw [hlen]
        exact hw.2.1
      · intro i r2 hr2
        show r2.length = if i < g.size.height then g.size.width - 1 else 0
        by_cases hih : i < g.size.height
        · obtain ⟨r, r2a, hr, hfr, hr2a⟩ := hlt i hih
          rw [hr2a] at hr2
          have : r2 = r2a := (Option.some.inj hr2).symm
          subst this
          by_cases hir : index < r.length
          · rw [if_pos hir] at hfr
            have hlr : listRemove r index = r2 := Except.ok.inj hfr
            rw [← hlr, listRemove_length r index hir]
            have := hw.row_length hr
            rw [if_pos hih] at this
            rw [this, if_pos hih]
          · rw [if_neg hir] at hfr
            exact Except.noConfusion hfr
        · rw [hge i (by omega)] at hr2
          have := hw.row_length hr2
          rw [if_neg hih] at this
          rw [this, if_neg hih]
  · rw [if_neg hi] at h; exact Except.noConfusion h

theorem foldE_wf_pres {f : Grid T → Nat → Except GridError (Grid T)}
    (hf : ∀ g g2 i, g.WF → f g i = .ok g2 → g2.WF) :
    ∀ (l : List Nat) (g g2 : Grid T), g.WF → foldE f g l = .ok g2 → g2.WF := by
  intro l
  induction l with
  | nil =>
    intro g g2 hw h
    rw [foldE_nil] at h
    have := Except.ok.inj h
    subst this
    exact hw
  | cons x xs ih =>
    intro g g2 hw h
    cases hx : f g x with
    | error e =>
      rw [foldE_cons_error f g e x xs hx] at h
      exact Except.noConfusion h
    | ok g1 =>
      rw [foldE_cons_ok f g g1 x xs hx] at h
      exact ih g1 g2 (hf g g1 x hw hx) h

theorem Grid.col_reverse_ok_wf {g g2 : Grid T} {index : Nat}
    (hw : g.WF) (h : g.col_reverse index = .ok g2) : g2.WF := by
  unfold Grid.col_reverse at h
  by_cases hi : index < g.size.width
  · rw [if_pos hi] at h
    exact foldE_wf_pres
      (fun ga gb i hwa hs => Grid.swap_value_ok_wf hwa hs) _ g g2 hw h
  · rw [if_neg hi] at h
    exact Except.noConfusion h

theorem Grid.col_rotate_top_ok_wf {g g2 : Grid T} {index number : Nat}
    (hw : g.WF) (h : g.col_rotate_top index number = .ok g2) : g2.WF := by
  unfold Grid.col_rotate_top at h
  by_cases hi : index < g.size.width
  · rw [if_pos hi] at h
    by_cases hn : number ≤ g.size.height
    · rw [if_pos hn] at h
      by_cases hz : g.size.height = 0
      · rw [if_pos hz] at h
        exact Except.noConfusion h
      · rw [if_neg hz] at h
        exact foldE_wf_pres
          (fun ga gb i hwa hs => Grid.swap_value_ok_wf hwa hs) _ g g2 hw h
    · rw [if_neg hn] at h
      exact Except.noConfusion h
  · rw [if_neg hi] at h
    exact Except.noConfusion h

theorem Grid.col_rotate_bottom_ok_wf {g g2 : Grid T} {index number : Nat}
    (hw : g.WF) (h : g.col_rotate_bottom index number = .ok g2) : g2.WF := by
  unfold Grid.col_rotate_bottom at h
  by_cases hi : index < g.size.width
  · rw [if_pos hi] at h
    exact foldE_wf_pres
      (fun ga gb i hwa hs => Grid.swap_value_ok_wf hwa hs) _ g g2 hw h
  · rw [if_neg hi] at h
    exact Except.noConfusion h

theorem Grid.flip_horizontally_ok_wf {g g2 : Grid T}
    (hw : g.WF) (h : g.flip_horizontally = .ok g2) : g2.WF := by
  unfold Grid.flip_horizontally at h
  exact foldE_wf_pres
    (fun ga gb i hwa hs => Grid.row_reverse_ok_wf hwa hs) _ g g2 hw h

theorem Grid.flip_vertically_ok_wf {g g2 : Grid T}
    (hw : g.WF) (h : g.flip_vertically = .ok g2) : g2.WF := by
  unfold Grid.flip_vertically at h
  exact foldE_wf_pres
    (fun ga gb i hwa hs => Grid.col_reverse_ok_wf hwa hs) _ g g2 hw h

theorem Grid.rotate_left_ok_wf {g g2 : Grid T}
    (hw : g.WF) (h : g.rotate_left = .ok g2) : g2.WF := by
  rw [Grid.rotate_left_eq hw] at h
  have := Except.ok.inj h
  subst this
  exact rlRows_wf hw

theorem Grid.rotate_right_ok_wf {g g2 : Grid T}
    (hw : g.WF) (h : g.rotate_right = .ok g2) : g2.WF := by
  rw [Grid.rotate_right_eq hw] at h
  have := Except.ok.inj h
  subst this
  exact rrRows_wf hw

theorem Grid.new_wf : (@Grid.new T).WF :=
  ⟨Nat.le_refl 0, Nat.le_refl 0, fun i hi => absurd hi (by simp [Grid.new])⟩

theorem Grid.zero_wf : (@Grid.zero T).WF := Grid.new_wf

theorem Grid.with_size_wf (s : Size) (v : T) : (Grid.with_size s v).WF := by
  apply wf_mk
  · exact Nat.le_refl _
  · simp [Grid.with_size]
  · intro i r2 hr2
    show r2.length = if i < s.height then s.width else 0
    rw [List.getElem?_replicate] at hr2
    by_cases hi : i < s.height
    · rw [if_pos hi] at hr2
      have : r2 = List.replicate s.width v := (Option.some.inj hr2).symm
      subst this
      rw [if_pos hi, List.length_replicate]
    · rw [if_neg hi] at hr2
      exact Option.noConfusion hr2

theorem Grid.with_capacity_wf (c : Size) : (@Grid.with_capacity T c).WF := by
  apply wf_mk
  · exact Nat.zero_le _
  · exact Nat.zero_le _
  · intro i r2 hr2
    rw [List.getElem?_replicate] at hr2
    by_cases hi : i < c.height
    · rw [if_pos hi] at hr2
      have : r2 = [] := (Option.some.inj hr2).symm
      subst this
      simp
    · rw [if_neg hi] at hr2
      exact Option.noConfusion hr2

theorem Grid.from_rows_ok_wf {rows : List (List T)} {g2 : Grid T}
    (h : Grid.from_rows rows = .ok g2) : g2.WF := by
  unfold Grid.from_rows at h
  cases hh : rows.head? with
  | none =>
    rw [hh] at h
    exact Except.noConfusion h
  | some first =>
    rw [hh] at h
    have h2 : (if rows.all fun row => row.length = first.length then
        Except.ok (Grid.mk ⟨first.length, rows.length⟩ rows first.length)
      else Except.error GridError.ShapeError) = Except.ok g2 := h
    by_cases hall : rows.all fun row => row.length = first.length
    · rw [if_pos hall] at h2
      have hg := Except.ok.inj h2
      subst hg
      simp only [List.all_eq_true, decide_eq_true_eq] at hall
      apply wf_mk
      · exact Nat.le_refl _
      · exact Nat.le_refl _
      · intro i r2 hr2
        show r2.length = if i < rows.length then first.length else 0
        rw [List.getElem?_eq_some_iff] at hr2
        obtain ⟨hil, hr2⟩ := hr2
        rw [if_pos hil, ← hr2]
        exact hall rows[i] (List.getElem_mem hil)
    · rw [if_neg hall] at h2
      exact Except.noConfusion h2

theorem Grid.from_columns_ok_wf {cols : List (List T)} {g2 : Grid T}
    (h : Grid.from_columns cols = .ok g2) : g2.WF := by
  unfold Grid.from_columns at h
  cases hfr : Grid.from_rows cols with
  | error e =>
    rw [hfr] at h
    exact Except.noConfusion h
  | ok g0 =>
    rw [hfr] at h
    have h2 : (match g0.flip_horizontally with
        | Except.error e => Except.error e
        | Except.ok g1 => g1.rotate_left) = Except.ok g2 := h
    cases hfh : g0.flip_horizontally with
    | error e =>
      rw [hfh] at h2
      exact Except.noConfusion h2
    | ok g1 =>
      rw [hfh] at h2
      exact Grid.rotate_left_ok_wf
        (Grid.flip_horizontally_ok_wf (Grid.from_rows_ok_wf hfr) hfh) h2

/-- One public mutating operation of `Grid` (including the mutations
exposed through `RowMut` / `ColumnMut` views), as a step relation: the
operation was called and returned normally (no panic). -/
inductive GStep : Grid T → Grid T → Prop where
  | set_value (g g2 : Grid T) (c : Coordinate) (v : T)
      (h : g.set_value c v = .ok g2) : GStep g g2
  | swap_value (g g2 : Grid T) (a b : Coordinate)
      (h : g.swap_value a b = .ok g2) : GStep g g2
  | resize (g : Grid T) (s : Size) (v : T) : GStep g (g.resize s v)
  | fill (g g2 : Grid T) (v : T) (h : g.fill v = .ok g2) : GStep g g2
  | clear (g : Grid T) : GStep g g.clear
  | reserve (g : Grid T) (a : Size) : GStep g (g.reserve a)
  | insert_row (g g2 : Grid T) (index : Nat) (row : List T)
      (h : g.insert_row index row = .ok g2) : GStep g g2
  | remove_row (g g2 : Grid T) (index : Nat)
      (h : g.remove_row index = .ok g2) : GStep g g2
  | insert_column (g g2 : Grid T) (index : Nat) (col : List T)
      (h : g.insert_column index col = .ok g2) : GStep g g2
  | remove_column (g g2 : Grid T) (index : Nat)
      (h : g.remove_column index = .ok g2) : GStep g g2
  | swap_row (g g2 : Grid T) (a b : Nat)
      (h : g.swap_row a b = .ok g2) : GStep g g2
  | swap_column (g g2 : Grid T) (a b : Nat)
      (h : g.swap_column a b = .ok g2) : GStep g g2
  | row_reverse (g g2 : Grid T) (index : Nat)
      (h : g.row_reverse index = .ok g2) : GStep g g2
  | row_rotate_left (g g2 : Grid T) (index n : Nat)
      (h : g.row_rotate_left index n = .ok g2) : GStep g g2
  | row_rotate_right (g g2 : Grid T) (index n : Nat)
      (h : g.row_rotate_right index n = .ok g2) : GStep g g2
  | col_reverse (g g2 : Grid T) (index : Nat)
      (h : g.col_reverse index = .ok g2) : GStep g g2
  | col_rotate_top (g g2 : Grid T) (index n : Nat)
      (h : g.col_rotate_top index n = .ok g2) : GStep g g2
  | col_rotate_bottom (g g2 : Grid T) (index n : Nat)
      (h : g.col_rotate_bottom index n = .ok g2) : GStep g g2
  | flip_horizontally (g g2 : Grid T)
      (h : g.flip_horizontally = .ok g2) : GStep g g2
  | flip_vertically (g g2 : Grid T)
      (h : g.flip_vertically = .ok g2) : GStep g g2
  | rotate_left (g g2 : Grid T)
      (h : g.rotate_left = .ok g2) : GStep g g2
  | rotate_right (g g2 : Grid T)
      (h : g.rotate_right = .ok g2) : GStep g g2

/-- A grid produced by one of the public constructors followed by any
sequence of public mutating operations. -/
inductive Reachable : Grid T → Prop where
  | new : Reachable Grid.new
  | zero : Reachable Grid.zero
  | with_size (s : Size) (v : T) : Reachable (Grid.with_size s v)
  | with_capacity (c : Size) : Reachable (Grid.with_capacity c)
  | from_rows (rows : List (List T)) (g : Grid T)
      (h : Grid.from_rows rows = .ok g) : Reachable g
  | from_columns (cols : List (List T)) (g : Grid T)
      (h : Grid.from_columns cols = .ok g) : Reachable g
  | step (g g2 : Grid T) (hg : Reachable g) (h : GStep g g2) : Reachable g2

theorem GStep.wf_step {g g2 : Grid T} (hw : g.WF) (h : GStep g g2) : g2.WF := by
  cases h with
  | set_value g2 c v h => exact Grid.set_value_ok_wf hw h
  | swap_value g2 a b h => exact Grid.swap_value_ok_wf hw h
  | resize s v => exact Grid.resize_wf _ hw s v
  | fill g2 v h => exact Grid.fill_ok_wf hw h
  | clear => exact Grid.clear_wf _
  | reserve a => exact Grid.reserve_wf _ hw a
  | insert_row g2 index row h => exact Grid.insert_row_ok_wf hw h
  | remove_row g2 index h => exact Grid.remove_row_ok_wf hw h
  | insert_column g2 index col h => exact Grid.insert_column_ok_wf hw h
  | remove_column g2 index h => exact Grid.remove_column_ok_wf hw h
  | swap_row g2 a b h => exact Grid.swap_row_ok_wf hw h
  | swap_column g2 a b h => exact Grid.swap_column_ok_wf hw h
  | row_reverse g2 index h => exact Grid.row_reverse_ok_wf hw h
  | row_rotate_left g2 index n h => exact Grid.row_rotate_left_ok_wf hw h
  | row_rotate_right g2 index n h => exact Grid.row_rotate_right_ok_wf hw h
  | col_reverse g2 index h => exact Grid.col_reverse_ok_wf hw h
  | col_rotate_top g2 index n h => exact Grid.col_rotate_top_ok_wf hw h
  | col_rotate_bottom g2 index n h => exact Grid.col_rotate_bottom_ok_wf hw h
  | flip_horizontally g2 h => exact Grid.flip_horizontally_ok_wf hw h
  | flip_vertically g2 h => exact Grid.flip_vertically_ok_wf hw h
  | rotate_left g2 h => exact Grid.rotate_left_ok_wf hw h
  | rotate_right g2 h => exact Grid.rotate_right_ok_wf hw h

theorem Reachable.wf_reach {g : Grid T} (h : Reachable g) : g.WF := by
  induction h with
  | new => exact Grid.new_wf
  | zero => exact Grid.zero_wf
  | with_size s v => exact Grid.with_size_wf s v
  | with_capacity c => exact Grid.with_capacity_wf c
  | from_rows rows g h => exact Grid.from_rows_ok_wf h
  | from_columns cols g h => exact Grid.from_columns_ok_wf h
  | step g g2 hg h ih => exact GStep.wf_step ih h

/-- Claim C9: for every grid reachable from any public constructor
(`new`, `zero`, `with_size`, `with_capacity`, `from_rows`,
`from_columns`) by any sequence of successfully returning public
mutating operations (including the `RowMut` / `ColumnMut` view
mutations), `capacity().width ≥ size().width` and
`capacity().height ≥ size().height`. -/
theorem claim9_capacity_invariant {T : Type} (g : Grid T)
    (h : Reachable g) :
    g.size.width ≤ g.capacity.width ∧ g.size.height ≤ g.capacity.height :=
  ⟨(Reachable.wf_reach h).1, (Reachable.wf_reach h).2.1⟩

theorem claim9_witness :
    Reachable (Grid.with_size ⟨2, 3⟩ (0 : Nat)) ∧
    ((Grid.with_size ⟨2, 3⟩ (0 : Nat)).size.width ≤
        (Grid.with_size ⟨2, 3⟩ (0 : Nat)).capacity.width ∧
      (Grid.with_size ⟨2, 3⟩ (0 : Nat)).size.height ≤
        (Grid.with_size ⟨2, 3⟩ (0 : Nat)).capacity.height) :=
  ⟨Reachable.with_size ⟨2, 3⟩ 0,
    claim9_capacity_invariant (Grid.with_size ⟨2, 3⟩ (0 : Nat))
      (Reachable.with_size ⟨2, 3⟩ 0)⟩

/-- Claim C10: every reachable grid has rectangular backing storage —
each of the first `size.height` row-buffers holds exactly `size.width`
elements, and every retained spare row-buffer at an index `≥ size.height`
holds `0` elements. -/
theorem claim10_rectangularity {T : Type} (g : Grid T)
    (h : Reachable g) :
    (∀ i r, g.rows[i]? = some r → i < g.size.height →
      r.length = g.size.width) ∧
    (∀ i r, g.rows[i]? = some r → g.size.height ≤ i → r.length = 0) := by
  have hw := Reachable.wf_reach h
  constructor
  · intro i r hr hi
    have := hw.row_length hr
    rwa [if_pos hi] at this
  · intro i r hr hi
    have := hw.row_length hr
    rwa [if_neg (by omega)] at this

theorem claim10_witness :
    Reachable (Grid.mk ⟨2, 3⟩ [[1, 2], [3, 4], [5, 6]] 2 : Grid Nat) ∧
    ((∀ i r, (Grid.mk ⟨2, 3⟩ [[1, 2], [3, 4], [5, 6]] 2 :
        Grid Nat).rows[i]? = some r → i < 3 → r.length = 2) ∧
      (∀ i r, (Grid.mk ⟨2, 3⟩ [[1, 2], [3, 4], [5, 6]] 2 :
        Grid Nat).rows[i]? = some r → 3 ≤ i → r.length = 0)) :=
  ⟨Reachable.from_rows [[1, 2], [3, 4], [5, 6]] _ rfl,
    claim10_rectangularity (Grid.mk ⟨2, 3⟩ [[1, 2], [3, 4], [5, 6]] 2)
      (Reachable.from_rows [[1, 2], [3, 4], [5, 6]] _ rfl)⟩
end Ingrid
